import Mathlib

/-!
Verification of the DCC_CV extraction engine (src/dcc_cv) against its
specification.  Python strings are modelled as `List Char`, Python floats as
`ℚ` (the numeric strings this code feeds to `float()` are plain decimal
digit/dot strings, on which decimal-to-value conversion is exact up to the
equality tests the code performs), and Python regular expressions by a small
backtracking engine with Python's leftmost / greedy-first / lazy-first match
priority, capture groups, anchors and negative lookahead.  Every pattern of
the source is transcribed literally into the engine's syntax.
-/

set_option maxRecDepth 10000

/-- Python strings are modelled as lists of characters. -/
abbrev Str := List Char

/-- Characters treated as whitespace by Python `str.strip()` / `\s` (ASCII). -/
def isPySpace (c : Char) : Bool :=
  c = ' ' || c = '\t' || c = '\n' || c = '\r' || c = '\x0b' || c = '\x0c'

/-- Python `s.strip()`: remove leading and trailing whitespace. -/
def pyStrip (l : Str) : Str :=
  ((l.dropWhile isPySpace).reverse.dropWhile isPySpace).reverse

/-- Python `s.replace(a, b)` for single characters. -/
def pyReplace (a b : Char) (l : Str) : Str :=
  l.map (fun c => if c = a then b else c)

/-- Python slice `text[a:b]` (for `a ≤ b`; clamping is implicit). -/
def pySlice (text : Str) (a b : Nat) : Str :=
  (text.drop a).take (b - a)

/-- Python `s.split(sep)[-1]`: the suffix after the last separator
(the whole string when the separator does not occur). -/
def lastSplitPiece (sep : Char) (l : Str) : Str :=
  (l.reverse.takeWhile (fun c => ¬ c = sep)).reverse

/-- Numeric value of a list of decimal digit characters. -/
def digitsVal (l : Str) : Nat :=
  l.foldl (fun a c => 10 * a + (c.toNat - 48)) 0

/-- Python `float(s)` restricted to the strings this program feeds it:
after stripping, the string must be a non-empty run of decimal digits with at
most one dot and at least one digit; anything else raises `ValueError`,
modelled as `none`.  The value is returned exactly as a rational. -/
def pyFloat (l : Str) : Option ℚ :=
  let s := pyStrip l
  if s ≠ [] ∧ s.all (fun c => c.isDigit || c = '.') ∧
      s.countP (fun c => c = '.') ≤ 1 ∧ s.any Char.isDigit then
    let ip := s.takeWhile (fun c => ¬ c = '.')
    let fp := (s.dropWhile (fun c => ¬ c = '.')).drop 1
    some (mkRat (digitsVal ip * 10 ^ fp.length + digitsVal fp) (10 ^ fp.length))
  else none

/-! ## Regular-expression engine -/

/-- One item of a character class: a single character or a range. -/
inductive RItem where
  | one (c : Char)
  | rng (a b : Char)
deriving DecidableEq, Repr

/-- Regular expressions, as used by the transcribed patterns.  Literal
characters are encoded as singleton classes so that the `IGNORECASE` flag is
handled uniformly. -/
inductive RE where
  | eps
  | cls (neg : Bool) (items : List RItem)
  | cat (r1 r2 : RE)
  | alt (r1 r2 : RE)
  | star (lzy : Bool) (r : RE)
  | opt (r : RE)
  | grp (idx : Nat) (r : RE)
  | bol
  | eol
  | nla (r : RE)
deriving Repr

/-- Does a class item match the character exactly? -/
def itemHas (c : Char) : RItem → Bool
  | .one a => c = a
  | .rng a b => a ≤ c ∧ c ≤ b

/-- Character-class membership under an optional `IGNORECASE` flag: Python
matches when the character or one of its case variants is in the class. -/
def clsMatch (ci : Bool) (neg : Bool) (items : List RItem) (c : Char) : Bool :=
  let base := items.any (itemHas c) ||
    (ci && (items.any (itemHas c.toLower) || items.any (itemHas c.toUpper)))
  if neg then !base else base

/-- A regex match: start and end offsets plus the capture-group list,
most recent first. -/
structure RMatch where
  mstart : Nat
  mend : Nat
  caps : List (Nat × Nat × Nat)
deriving DecidableEq, Repr

/-- Backtracking matcher in continuation-passing style.  The continuation
receives the position and captures reached; alternatives are tried in
Python's priority order (left branch first, greedy repetition longest first,
lazy repetition shortest first).  `fuel` only bounds the recursion depth and
is chosen generously by the callers. -/
def mat (text : Str) (ci ml : Bool) :
    Nat → RE → Nat → List (Nat × Nat × Nat) →
    (Nat → List (Nat × Nat × Nat) → Option RMatch) → Option RMatch
  | 0, _, _, _, _ => none
  | _ + 1, .eps, pos, caps, k => k pos caps
  | _ + 1, .cls neg items, pos, caps, k =>
    match text[pos]? with
    | some c => if clsMatch ci neg items c then k (pos + 1) caps else none
    | none => none
  | fuel + 1, .cat r1 r2, pos, caps, k =>
    mat text ci ml fuel r1 pos caps (fun p c => mat text ci ml fuel r2 p c k)
  | fuel + 1, .alt r1 r2, pos, caps, k =>
    mat text ci ml fuel r1 pos caps k <|> mat text ci ml fuel r2 pos caps k
  | fuel + 1, .star lzy r, pos, caps, k =>
    let body := mat text ci ml fuel r pos caps
      (fun p c => if p = pos then none else mat text ci ml fuel (.star lzy r) p c k)
    if lzy then k pos caps <|> body else body <|> k pos caps
  | fuel + 1, .opt r, pos, caps, k =>
    mat text ci ml fuel r pos caps k <|> k pos caps
  | fuel + 1, .grp i r, pos, caps, k =>
    mat text ci ml fuel r pos caps (fun p c => k p ((i, pos, p) :: c))
  | _ + 1, .bol, pos, caps, k =>
    if pos = 0 ∨ (ml ∧ text[pos - 1]? = some '\n') then k pos caps else none
  | _ + 1, .eol, pos, caps, k =>
    if pos = text.length ∨ (ml ∧ text[pos]? = some '\n') ∨
        (¬ ml ∧ pos + 1 = text.length ∧ text[pos]? = some '\n') then
      k pos caps
    else none
  | fuel + 1, .nla r, pos, caps, k =>
    match mat text ci ml fuel r pos caps (fun p c => some ⟨pos, p, c⟩) with
    | some _ => none
    | none => k pos caps

/-- Fuel that is comfortably larger than any recursion depth the transcribed
patterns can reach on the given text. -/
def engineFuel (text : Str) : Nat := text.length + 300

/-- Attempt to match the pattern at a fixed start position. -/
def matchAt (ci ml : Bool) (re : RE) (text : Str) (pos : Nat) : Option RMatch :=
  mat text ci ml (engineFuel text) re pos [] (fun e c => some ⟨pos, e, c⟩)

/-- Try successive start positions, leftmost first, like `re.search`. -/
def searchFrom (ci ml : Bool) (re : RE) (text : Str) : Nat → Nat → Option RMatch
  | 0, _ => none
  | rem + 1, pos => matchAt ci ml re text pos <|> searchFrom ci ml re text rem (pos + 1)

/-- Python `re.search(pattern, text, flags)`. -/
def reSearch (ci ml : Bool) (re : RE) (text : Str) : Option RMatch :=
  searchFrom ci ml re text (text.length + 1) 0

/-- Python `re.search` starting at a given offset (used by the iterator). -/
def reSearchAt (ci ml : Bool) (re : RE) (text : Str) (pos : Nat) : Option RMatch :=
  searchFrom ci ml re text (text.length + 1 - pos) pos

/-- Worker for `finditer`: collect successive non-overlapping matches,
advancing past each match (and by one character after an empty match). -/
def finditerFrom (ci ml : Bool) (re : RE) (text : Str) : Nat → Nat → List RMatch
  | 0, _ => []
  | fuel + 1, pos =>
    match reSearchAt ci ml re text pos with
    | none => []
    | some m =>
      m :: finditerFrom ci ml re text fuel
        (if m.mend = m.mstart then m.mstart + 1 else m.mend)

/-- Python `re.finditer(pattern, text, flags)`. -/
def finditer (ci ml : Bool) (re : RE) (text : Str) : List RMatch :=
  finditerFrom ci ml re text (text.length + 1) 0

/-- Capture group lookup: the most recent span recorded for the index. -/
def capSpan (m : RMatch) (i : Nat) : Option (Nat × Nat) :=
  (m.caps.find? (fun t => t.1 = i)).map (fun t => (t.2.1, t.2.2))

/-- Python `m.group(i)` as an optional string (absent when the group did not
participate in the match). -/
def groupStr (text : Str) (m : RMatch) (i : Nat) : Option Str :=
  (capSpan m i).map (fun p => pySlice text p.1 p.2)

/-! ## Transcription of the source regular expressions

Each definition below transcribes one pattern string from
`src/dcc_cv/extractor.py` (`DocumentExtractor.PATTERNS`,
`DocumentExtractor.UNIT_PATTERNS` and the `measurement_pattern` of
`extract_measurement_tables`). -/

/-- Singleton class for one literal character. -/
def rchar (c : Char) : RE := .cls false [.one c]

/-- Class of exactly two characters, e.g. `[Cc]`. -/
def c2 (a b : Char) : RE := .cls false [.one a, .one b]

/-- Concatenation of a list of regexes. -/
def rcat : List RE → RE
  | [] => .eps
  | [r] => r
  | r :: rs => .cat r (rcat rs)

/-- Literal string. -/
def rstr (s : String) : RE := rcat (s.toList.map rchar)

/-- Items of `\s`. -/
def spaceItems : List RItem :=
  [.one ' ', .one '\t', .one '\n', .one '\r', .one '\x0b', .one '\x0c']

/-- Regex `\s`. -/
def rS : RE := .cls false spaceItems

/-- Regex `\d`. -/
def rD : RE := .cls false [.rng '0' '9']

/-- Greedy `r+`. -/
def rplus (r : RE) : RE := .cat r (.star false r)

/-- Lazy `r+?`. -/
def rplusLazy (r : RE) : RE := .cat r (.star true r)

/-- Greedy `\s*`. -/
def starS : RE := .star false rS

/-- Class `[A-Z0-9/\-]`. -/
def clsIdent : RE := .cls false [.rng 'A' 'Z', .rng '0' '9', .one '-', .one '/']

/-- Class `[\d.,]`. -/
def clsNum : RE := .cls false [.rng '0' '9', .one '.', .one ',']

/-- Class `[.\/\-]` (the separators `[./\-]` of the date patterns). -/
def clsDateSep : RE := .cls false [.one '.', .one '/', .one '-']

/-- Class `[:.]`. -/
def clsColonDot : RE := c2 ':' '.'

/-- Class `[A-Za-z°%]`. -/
def clsAlphaUnit : RE := .cls false [.rng 'A' 'Z', .rng 'a' 'z', .one '°', .one '%']

/-- Class `[a-zA-Z]` (used in the negative lookaheads). -/
def clsLetter : RE := .cls false [.rng 'a' 'z', .rng 'A' 'Z']

/-- Regex `\d{1,2}`. -/
def d12 : RE := .cat rD (.opt rD)

/-- Regex `\d{2,4}`. -/
def d24 : RE := rcat [rD, rD, .opt (.cat rD (.opt rD))]

/-- Group `(\d{1,2}[./\-]\d{1,2}[./\-]\d{2,4})` shared by the date patterns. -/
def dateGrp : RE := .grp 1 (rcat [d12, clsDateSep, d12, clsDateSep, d24])

/-- Pattern `[Cc]ertificate\s*(?:[Nn]o\.?|[Nn]umber)\s*[:.]?\s*([A-Z0-9/\-]+)`. -/
def certNum1 : RE := rcat [c2 'C' 'c', rstr "ertificate", starS,
  .alt (rcat [c2 'N' 'n', rchar 'o', .opt (rchar '.')]) (rcat [c2 'N' 'n', rstr "umber"]),
  starS, .opt clsColonDot, starS, .grp 1 (rplus clsIdent)]

/-- Pattern `[Kk]alibrierzertifikat\s*(?:[Nn]r\.?)\s*[:.]?\s*([A-Z0-9/\-]+)`. -/
def certNum2 : RE := rcat [c2 'K' 'k', rstr "alibrierzertifikat", starS,
  rcat [c2 'N' 'n', rchar 'r', .opt (rchar '.')],
  starS, .opt clsColonDot, starS, .grp 1 (rplus clsIdent)]

/-- Pattern `[Cc]ertificate\s*[Ii][Dd]\s*[:.]?\s*([A-Z0-9/\-]+)`. -/
def certNum3 : RE := rcat [c2 'C' 'c', rstr "ertificate", starS,
  c2 'I' 'i', c2 'D' 'd', starS, .opt clsColonDot, starS, .grp 1 (rplus clsIdent)]

/-- Pattern `[Cc]alibration\s*[Dd]ate\s*[:.]?\s*(...)`. -/
def calDate1 : RE := rcat [c2 'C' 'c', rstr "alibration", starS, c2 'D' 'd',
  rstr "ate", starS, .opt clsColonDot, starS, dateGrp]

/-- Pattern `[Dd]ate\s+of\s+[Cc]alibration\s*[:.]?\s*(...)`. -/
def calDate2 : RE := rcat [c2 'D' 'd', rstr "ate", rplus rS, rstr "of", rplus rS,
  c2 'C' 'c', rstr "alibration", starS, .opt clsColonDot, starS, dateGrp]

/-- Pattern `[Kk]alibrierdatum\s*[:.]?\s*(...)`. -/
def calDate3 : RE := rcat [c2 'K' 'k', rstr "alibrierdatum", starS,
  .opt clsColonDot, starS, dateGrp]

/-- Pattern `[Dd]ate\s+of\s+[Ii]ssue\s*[:.]?\s*(...)`. -/
def certDate1 : RE := rcat [c2 'D' 'd', rstr "ate", rplus rS, rstr "of", rplus rS,
  c2 'I' 'i', rstr "ssue", starS, .opt clsColonDot, starS, dateGrp]

/-- Pattern `[Ii]ssue\s*[Dd]ate\s*[:.]?\s*(...)`. -/
def certDate2 : RE := rcat [c2 'I' 'i', rstr "ssue", starS, c2 'D' 'd', rstr "ate",
  starS, .opt clsColonDot, starS, dateGrp]

/-- Pattern `[Aa]usstellungsdatum\s*[:.]?\s*(...)`. -/
def certDate3 : RE := rcat [c2 'A' 'a', rstr "usstellungsdatum", starS,
  .opt clsColonDot, starS, dateGrp]

/-- Pattern `[Ss]erial\s*(?:[Nn]o\.?|[Nn]umber)\s*[:.]?\s*([A-Z0-9/\-]+)`. -/
def serial1 : RE := rcat [c2 'S' 's', rstr "erial", starS,
  .alt (rcat [c2 'N' 'n', rchar 'o', .opt (rchar '.')]) (rcat [c2 'N' 'n', rstr "umber"]),
  starS, .opt clsColonDot, starS, .grp 1 (rplus clsIdent)]

/-- Pattern `[Ss]erien[Nn]ummer\s*[:.]?\s*([A-Z0-9/\-]+)`. -/
def serial2 : RE := rcat [c2 'S' 's', rstr "erien", c2 'N' 'n', rstr "ummer",
  starS, .opt clsColonDot, starS, .grp 1 (rplus clsIdent)]

/-- Pattern `S/N\s*[:.]?\s*([A-Z0-9/\-]+)`. -/
def serial3 : RE := rcat [rstr "S/N", starS, .opt clsColonDot, starS,
  .grp 1 (rplus clsIdent)]

/-- Class `[A-Za-z0-9\s&]` of the manufacturer patterns. -/
def clsManuf : RE := .cls false
  ([.rng 'A' 'Z', .rng 'a' 'z', .rng '0' '9'] ++ spaceItems ++ [.one '&'])

/-- Group tail `(?:\n|$|,)` of the manufacturer and model patterns. -/
def lineEnd : RE := .alt (rchar '\n') (.alt .eol (rchar ','))

/-- Pattern `[Mm]anufacturer\s*[:.]?\s*([A-Za-z0-9\s&]+?)(?:\n|$|,)`. -/
def manuf1 : RE := rcat [c2 'M' 'm', rstr "anufacturer", starS, .opt clsColonDot,
  starS, .grp 1 (rplusLazy clsManuf), lineEnd]

/-- Pattern `[Hh]ersteller\s*[:.]?\s*([A-Za-z0-9\s&]+?)(?:\n|$|,)`. -/
def manuf2 : RE := rcat [c2 'H' 'h', rstr "ersteller", starS, .opt clsColonDot,
  starS, .grp 1 (rplusLazy clsManuf), lineEnd]

/-- Pattern `[Mm]ade\s+[Bb]y\s*[:.]?\s*([A-Za-z0-9\s&]+?)(?:\n|$|,)`. -/
def manuf3 : RE := rcat [c2 'M' 'm', rstr "ade", rplus rS, c2 'B' 'b', rchar 'y',
  starS, .opt clsColonDot, starS, .grp 1 (rplusLazy clsManuf), lineEnd]

/-- Class `[A-Za-z0-9/\-\s]` of the model patterns. -/
def clsModel : RE := .cls false
  ([.rng 'A' 'Z', .rng 'a' 'z', .rng '0' '9', .one '-', .one '/'] ++ spaceItems)

/-- Pattern `[Mm]odel\s*[:.]?\s*([A-Za-z0-9/\-\s]+?)(?:\n|$|,)`. -/
def model1 : RE := rcat [c2 'M' 'm', rstr "odel", starS, .opt clsColonDot,
  starS, .grp 1 (rplusLazy clsModel), lineEnd]

/-- Pattern `[Tt]ype\s*[:.]?\s*([A-Za-z0-9/\-\s]+?)(?:\n|$|,)`. -/
def model2 : RE := rcat [c2 'T' 't', rstr "ype", starS, .opt clsColonDot,
  starS, .grp 1 (rplusLazy clsModel), lineEnd]

/-- Pattern `[Mm]odell\s*[:.]?\s*([A-Za-z0-9/\-\s]+?)(?:\n|$|,)`. -/
def model3 : RE := rcat [c2 'M' 'm', rstr "odell", starS, .opt clsColonDot,
  starS, .grp 1 (rplusLazy clsModel), lineEnd]

/-- Pattern `[Tt]emperature\s*[:.]?\s*([\d.,]+)\s*°?C`. -/
def temp1 : RE := rcat [c2 'T' 't', rstr "emperature", starS, .opt clsColonDot,
  starS, .grp 1 (rplus clsNum), starS, .opt (rchar '°'), rchar 'C']

/-- Pattern `[Tt]emp\.?\s*[:.]?\s*([\d.,]+)\s*°?C`. -/
def temp2 : RE := rcat [c2 'T' 't', rstr "emp", .opt (rchar '.'), starS,
  .opt clsColonDot, starS, .grp 1 (rplus clsNum), starS, .opt (rchar '°'), rchar 'C']

/-- Pattern `([\d.,]+)\s*°C`. -/
def temp3 : RE := rcat [.grp 1 (rplus clsNum), starS, rchar '°', rchar 'C']

/-- Pattern `[Hh]umidity\s*[:.]?\s*([\d.,]+)\s*%`. -/
def hum1 : RE := rcat [c2 'H' 'h', rstr "umidity", starS, .opt clsColonDot,
  starS, .grp 1 (rplus clsNum), starS, rchar '%']

/-- Pattern `[Rr]elative\s*[Hh]umidity\s*[:.]?\s*([\d.,]+)\s*%`. -/
def hum2 : RE := rcat [c2 'R' 'r', rstr "elative", starS, c2 'H' 'h',
  rstr "umidity", starS, .opt clsColonDot, starS, .grp 1 (rplus clsNum), starS, rchar '%']

/-- Pattern `[Ff]euchtigkeit\s*[:.]?\s*([\d.,]+)\s*%`. -/
def hum3 : RE := rcat [c2 'F' 'f', rstr "euchtigkeit", starS, .opt clsColonDot,
  starS, .grp 1 (rplus clsNum), starS, rchar '%']

/-- Group `(hPa|mbar|Pa|kPa)` of the pressure patterns. -/
def presUnitGrp : RE :=
  .grp 2 (.alt (rstr "hPa") (.alt (rstr "mbar") (.alt (rstr "Pa") (rstr "kPa"))))

/-- Pattern `[Pp]ressure\s*[:.]?\s*([\d.,]+)\s*(hPa|mbar|Pa|kPa)`. -/
def pres1 : RE := rcat [c2 'P' 'p', rstr "ressure", starS, .opt clsColonDot,
  starS, .grp 1 (rplus clsNum), starS, presUnitGrp]

/-- Pattern `[Aa]tmospheric\s*[Pp]ressure\s*[:.]?\s*([\d.,]+)\s*(hPa|mbar|Pa|kPa)`. -/
def pres2 : RE := rcat [c2 'A' 'a', rstr "tmospheric", starS, c2 'P' 'p',
  rstr "ressure", starS, .opt clsColonDot, starS, .grp 1 (rplus clsNum), starS, presUnitGrp]

/-- Pattern `[Ll]uftdruck\s*[:.]?\s*([\d.,]+)\s*(hPa|mbar|Pa|kPa)`. -/
def pres3 : RE := rcat [c2 'L' 'l', rstr "uftdruck", starS, .opt clsColonDot,
  starS, .grp 1 (rplus clsNum), starS, presUnitGrp]

/-- The `PATTERNS` dispatch table of `DocumentExtractor`. -/
def PATTERNS : List (String × List RE) := [
  ("certificate_number", [certNum1, certNum2, certNum3]),
  ("calibration_date", [calDate1, calDate2, calDate3]),
  ("certificate_date", [certDate1, certDate2, certDate3]),
  ("serial_number", [serial1, serial2, serial3]),
  ("manufacturer", [manuf1, manuf2, manuf3]),
  ("model", [model1, model2, model3]),
  ("temperature", [temp1, temp2, temp3]),
  ("humidity", [hum1, hum2, hum3]),
  ("pressure", [pres1, pres2, pres3])]

/-- Class `[^|:\t]`. -/
def clsNotSep : RE := .cls true [.one '|', .one ':', .one '\t']

/-- Class `[|:\t]`. -/
def clsSep : RE := .cls false [.one '|', .one ':', .one '\t']

/-- The `measurement_pattern` of `extract_measurement_tables`:
`^([^|:\t]+?)\s*[|:\t]\s*([\d.,]+)\s*([A-Za-z°%]+)?\s*[|:\t]?\s*([\d.,]*)\s*([A-Za-z°%]*)?\s*[|:\t]?\s*([\d.,]*)`. -/
def measPat : RE := rcat [.bol, .grp 1 (rplusLazy clsNotSep), starS, clsSep,
  starS, .grp 2 (rplus clsNum), starS, .opt (.grp 3 (rplus clsAlphaUnit)),
  starS, .opt clsSep, starS, .grp 4 (.star false clsNum),
  starS, .opt (.grp 5 (.star false clsAlphaUnit)), starS, .opt clsSep,
  starS, .grp 6 (.star false clsNum)]

/-- Common numeric prefix `([\d.,]+)\s*` of every `UNIT_PATTERNS` entry. -/
def numPre : RE := .cat (.grp 1 (rplus clsNum)) starS

/-- The `UNIT_PATTERNS` list of `DocumentExtractor`, in source order. -/
def UNIT_PATTERNS : List (RE × Str) := [
  (.cat numPre (.grp 2 (rstr "kN")), "kN".toList),
  (.cat numPre (.grp 2 (rstr "MN")), "MN".toList),
  (.cat numPre (.cat (rchar 'N') (.nla clsLetter)), "N".toList),
  (.cat numPre (rstr "°C"), "°C".toList),
  (.cat numPre (.cat (rchar 'K') (.nla clsLetter)), "K".toList),
  (.cat numPre (.grp 2 (rstr "MPa")), "MPa".toList),
  (.cat numPre (.grp 2 (rstr "kPa")), "kPa".toList),
  (.cat numPre (.cat (.grp 2 (rstr "Pa")) (.nla clsLetter)), "Pa".toList),
  (.cat numPre (.grp 2 (rstr "bar")), "bar".toList),
  (.cat numPre (.grp 2 (rstr "mbar")), "mbar".toList),
  (.cat numPre (.grp 2 (rstr "mm")), "mm".toList),
  (.cat numPre (.grp 2 (.alt (rstr "µm") (rstr "um"))), "µm".toList),
  (.cat numPre (.cat (rchar 'm') (.nla clsLetter)), "m".toList),
  (.cat numPre (.grp 2 (rstr "kg")), "kg".toList),
  (.cat numPre (.cat (rchar 'g') (.nla clsLetter)), "g".toList),
  (.cat numPre (.grp 2 (rstr "mg")), "mg".toList),
  (.cat numPre (.grp 2 (rstr "mV")), "mV".toList),
  (.cat numPre (.cat (rchar 'V') (.nla clsLetter)), "V".toList),
  (.cat numPre (.grp 2 (rstr "mA")), "mA".toList),
  (.cat numPre (.cat (rchar 'A') (.nla clsLetter)), "A".toList),
  (.cat numPre (rcat [rchar '%', starS, .alt (rstr "rh") (rstr "RH")]), "%rh".toList),
  (.cat numPre (rchar '%'), "%".toList)]

/-! ## Data model (src/dcc_cv/models.py) -/

/-- Contact information model. -/
structure Contact where
  name : Option Str := none
  email : Option Str := none
  phone : Option Str := none
  fax : Option Str := none
deriving DecidableEq, Repr

/-- Address information model. -/
structure Address where
  street : Option Str := none
  city : Option Str := none
  postal_code : Option Str := none
  country : Option Str := none
  country_code : Option Str := none
deriving DecidableEq, Repr

/-- Organization information model. -/
structure Organization where
  name : Str
  address : Option Address := none
  contact : Option Contact := none
  accreditation_number : Option Str := none
deriving DecidableEq, Repr

/-- Measurement unit model following SI conventions. -/
structure MeasurementUnit where
  symbol : Str
  name : Option Str := none
  si_base : Option Str := none
deriving DecidableEq, Repr

/-- A single measured value with uncertainty. -/
structure MeasuredValue where
  value : ℚ
  unit : MeasurementUnit
  expanded_uncertainty : Option ℚ := none
  coverage_factor : Option ℚ := none
  coverage_probability : Option ℚ := none
deriving DecidableEq, Repr

/-- A measurement result entry from calibration. -/
structure MeasurementResult where
  name : Str
  reference_value : Option MeasuredValue := none
  measured_value : MeasuredValue
  deviation : Option MeasuredValue := none
  remarks : Option Str := none
deriving DecidableEq, Repr

/-- Information about the calibrated equipment. -/
structure EquipmentInfo where
  name : Str
  manufacturer : Option Str := none
  model : Option Str := none
  serial_number : Option Str := none
  equipment_class : Option Str := none
  identification_number : Option Str := none
deriving DecidableEq, Repr

/-- Environmental conditions during calibration. -/
structure EnvironmentalConditions where
  temperature : Option MeasuredValue := none
  humidity : Option MeasuredValue := none
  pressure : Option MeasuredValue := none
deriving DecidableEq, Repr

/-- A calendar date (`datetime.date`). -/
structure PyDate where
  year : Nat
  month : Nat
  day : Nat
deriving DecidableEq, Repr

/-- Main model representing a calibration certificate.  The
`extraction_timestamp` metadata field (a wall-clock side effect) is omitted. -/
structure CalibrationCertificate where
  certificate_number : Str
  certificate_date : Option PyDate := none
  calibration_date : Option PyDate := none
  valid_until : Option PyDate := none
  language : Str := "en".toList
  calibration_laboratory : Organization
  customer : Option Organization := none
  equipment : EquipmentInfo
  environmental_conditions : Option EnvironmentalConditions := none
  measurement_results : List MeasurementResult := []
  measurement_procedure : Option Str := none
  traceability : Option Str := none
  remarks : Option Str := none
  raw_text : Option Str := none
  source_file : Option Str := none
deriving DecidableEq, Repr

/-- Shorthand for a fully documented `COMMON_UNITS` entry. -/
def mkUnit (s n b : String) : MeasurementUnit :=
  ⟨s.toList, some n.toList, some b.toList⟩

/-- Shorthand for a `COMMON_UNITS` entry with no SI base. -/
def mkUnitNB (s n : String) : MeasurementUnit :=
  ⟨s.toList, some n.toList, none⟩

/-- The `COMMON_UNITS` lookup table of `models.py`, in source order. -/
def COMMON_UNITS : List (Str × MeasurementUnit) := [
  ("N".toList, mkUnit "N" "newton" "kg·m/s²"),
  ("kN".toList, mkUnit "kN" "kilonewton" "10³·kg·m/s²"),
  ("MN".toList, mkUnit "MN" "meganewton" "10⁶·kg·m/s²"),
  ("°C".toList, mkUnit "°C" "degree Celsius" "K"),
  ("K".toList, mkUnit "K" "kelvin" "K"),
  ("°F".toList, mkUnitNB "°F" "degree Fahrenheit"),
  ("Pa".toList, mkUnit "Pa" "pascal" "kg/(m·s²)"),
  ("kPa".toList, mkUnit "kPa" "kilopascal" "10³·kg/(m·s²)"),
  ("MPa".toList, mkUnit "MPa" "megapascal" "10⁶·kg/(m·s²)"),
  ("bar".toList, mkUnit "bar" "bar" "10⁵·kg/(m·s²)"),
  ("mbar".toList, mkUnit "mbar" "millibar" "10²·kg/(m·s²)"),
  ("m".toList, mkUnit "m" "meter" "m"),
  ("mm".toList, mkUnit "mm" "millimeter" "10⁻³·m"),
  ("µm".toList, mkUnit "µm" "micrometer" "10⁻⁶·m"),
  ("nm".toList, mkUnit "nm" "nanometer" "10⁻⁹·m"),
  ("kg".toList, mkUnit "kg" "kilogram" "kg"),
  ("g".toList, mkUnit "g" "gram" "10⁻³·kg"),
  ("mg".toList, mkUnit "mg" "milligram" "10⁻⁶·kg"),
  ("V".toList, mkUnit "V" "volt" "kg·m²/(A·s³)"),
  ("mV".toList, mkUnit "mV" "millivolt" "10⁻³·kg·m²/(A·s³)"),
  ("A".toList, mkUnit "A" "ampere" "A"),
  ("mA".toList, mkUnit "mA" "milliampere" "10⁻³·A"),
  ("Ω".toList, mkUnit "Ω" "ohm" "kg·m²/(A²·s³)"),
  ("s".toList, mkUnit "s" "second" "s"),
  ("ms".toList, mkUnit "ms" "millisecond" "10⁻³·s"),
  ("min".toList, mkUnit "min" "minute" "60·s"),
  ("h".toList, mkUnit "h" "hour" "3600·s"),
  ("Hz".toList, mkUnit "Hz" "hertz" "s⁻¹"),
  ("kHz".toList, mkUnit "kHz" "kilohertz" "10³·s⁻¹"),
  ("MHz".toList, mkUnit "MHz" "megahertz" "10⁶·s⁻¹"),
  ("%".toList, mkUnitNB "%" "percent"),
  ("ppm".toList, mkUnitNB "ppm" "parts per million"),
  ("%rh".toList, mkUnitNB "%rh" "percent relative humidity")]

/-- Dictionary lookup `COMMON_UNITS[symbol]` (first matching key). -/
def lookupCommonUnit (symbol : Str) : Option MeasurementUnit :=
  (COMMON_UNITS.find? (fun p => decide (p.1 = symbol))).map (fun p => p.2)

/-- Transcription of `models.get_unit`: get a `MeasurementUnit` by its symbol,
or create a generic one. -/
def get_unit (symbol : Str) : MeasurementUnit :=
  match lookupCommonUnit symbol with
  | some u => u
  | none => { symbol := symbol }

/-! ## Date parsing (`DocumentExtractor.parse_date`)

`datetime.strptime` is modelled after CPython's `_strptime`: each directive
compiles to a regex fragment (`%d` to `3[0-1]|[1-2]\d|0[1-9]|[1-9]| [1-9]`,
`%m` to `1[0-2]|0[1-9]|[1-9]`, `%Y` to four digits, `%y` to two digits with
the 1969..2068 pivot), the leftmost alternative wins, the whole stripped
string must be consumed, and the resulting numbers must form a valid
`datetime.date`. -/

/-- Numeric value of a digit character. -/
def digitVal (c : Char) : Nat := c.toNat - 48

/-- Alternatives of the `%d` directive, in CPython's order. -/
def dayAlts : Str → List (Nat × Str)
  | c1 :: c2 :: rest =>
    (if c1 = '3' ∧ (c2 = '0' ∨ c2 = '1') then [(30 + digitVal c2, rest)] else []) ++
    (if (c1 = '1' ∨ c1 = '2') ∧ c2.isDigit then [(10 * digitVal c1 + digitVal c2, rest)] else []) ++
    (if c1 = '0' ∧ ('1' ≤ c2 ∧ c2 ≤ '9') then [(digitVal c2, rest)] else []) ++
    (if '1' ≤ c1 ∧ c1 ≤ '9' then [(digitVal c1, c2 :: rest)] else []) ++
    (if c1 = ' ' ∧ ('1' ≤ c2 ∧ c2 ≤ '9') then [(digitVal c2, rest)] else [])
  | [c1] => if '1' ≤ c1 ∧ c1 ≤ '9' then [(digitVal c1, [])] else []
  | [] => []

/-- Alternatives of the `%m` directive, in CPython's order. -/
def monthAlts : Str → List (Nat × Str)
  | c1 :: c2 :: rest =>
    (if c1 = '1' ∧ ('0' ≤ c2 ∧ c2 ≤ '2') then [(10 + digitVal c2, rest)] else []) ++
    (if c1 = '0' ∧ ('1' ≤ c2 ∧ c2 ≤ '9') then [(digitVal c2, rest)] else []) ++
    (if '1' ≤ c1 ∧ c1 ≤ '9' then [(digitVal c1, c2 :: rest)] else [])
  | [c1] => if '1' ≤ c1 ∧ c1 ≤ '9' then [(digitVal c1, [])] else []
  | [] => []

/-- The `%Y` directive: exactly four digits. -/
def parseYear4 : Str → Option (Nat × Str)
  | a :: b :: c :: d :: rest =>
    if a.isDigit ∧ b.isDigit ∧ c.isDigit ∧ d.isDigit then
      some (1000 * digitVal a + 100 * digitVal b + 10 * digitVal c + digitVal d, rest)
    else none
  | _ => none

/-- The `%y` directive: exactly two digits, with years at most 68 mapped
into the 2000s and the rest into the 1900s. -/
def parseYear2 : Str → Option (Nat × Str)
  | a :: b :: rest =>
    if a.isDigit ∧ b.isDigit then
      let yy := 10 * digitVal a + digitVal b
      some (if yy ≤ 68 then 2000 + yy else 1900 + yy, rest)
    else none
  | _ => none

/-- One of the two year directives, selected by the format. -/
def parseYearK (twoDigit : Bool) (s : Str) : Option (Nat × Str) :=
  if twoDigit then parseYear2 s else parseYear4 s

/-- Consume one expected literal character. -/
def expectChar (c : Char) : Str → Option Str
  | d :: rest => if d = c then some rest else none
  | [] => none

/-- Gregorian leap year, as in `datetime`. -/
def isLeap (y : Nat) : Bool := y % 4 = 0 ∧ (y % 100 ≠ 0 ∨ y % 400 = 0)

/-- Days in a month, as in `datetime`. -/
def daysInMonth (y m : Nat) : Nat :=
  if m = 2 then (if isLeap y then 29 else 28)
  else if m = 4 ∨ m = 6 ∨ m = 9 ∨ m = 11 then 30
  else 31

/-- The `datetime.date` constructor: validates its fields, raising
(`none`) on out-of-range values. -/
def mkDate (y m d : Nat) : Option PyDate :=
  if 1 ≤ y ∧ y ≤ 9999 ∧ 1 ≤ m ∧ m ≤ 12 ∧ 1 ≤ d ∧ d ≤ daysInMonth y m then
    some ⟨y, m, d⟩
  else none

/-- The regex phase of `strptime` for a day-month-year format: the leftmost
(day, month, year) reading together with the unconsumed remainder. -/
def matchDMY (sep : Char) (twoDigit : Bool) (s : Str) : Option (Nat × Nat × Nat × Str) :=
  (dayAlts s).findSome? fun dr =>
    (expectChar sep dr.2).bind fun s2 =>
      (monthAlts s2).findSome? fun mr =>
        (expectChar sep mr.2).bind fun s3 =>
          (parseYearK twoDigit s3).map fun yr => (dr.1, mr.1, yr.1, yr.2)

/-- Ditto for the month-day-year format `%m/%d/%Y`. -/
def matchMDY (sep : Char) (s : Str) : Option (Nat × Nat × Nat × Str) :=
  (monthAlts s).findSome? fun mr =>
    (expectChar sep mr.2).bind fun s2 =>
      (dayAlts s2).findSome? fun dr =>
        (expectChar sep dr.2).bind fun s3 =>
          (parseYear4 s3).map fun yr => (dr.1, mr.1, yr.1, yr.2)

/-- Ditto for the ISO format `%Y-%m-%d`. -/
def matchISO (s : Str) : Option (Nat × Nat × Nat × Str) :=
  (parseYear4 s).bind fun yr =>
    (expectChar '-' yr.2).bind fun s2 =>
      (monthAlts s2).findSome? fun mr =>
        (expectChar '-' mr.2).bind fun s3 =>
          (dayAlts s3).findSome? fun dr => some (dr.1, mr.1, yr.1, dr.2)

/-- Completion of `strptime`: the whole string must have been consumed and
the numbers must form a valid date. -/
def finishDate (r : Option (Nat × Nat × Nat × Str)) : Option PyDate :=
  r.bind fun t => if t.2.2.2 = [] then mkDate t.2.2.1 t.2.1 t.1 else none

/-- The seven date formats of `parse_date`, in source order:
`%d.%m.%Y`, `%d/%m/%Y`, `%Y-%m-%d`, `%d-%m-%Y`, `%m/%d/%Y`, `%d.%m.%y`,
`%d/%m/%y`. -/
def date_formats : List (Str → Option PyDate) := [
  fun s => finishDate (matchDMY '.' false s),
  fun s => finishDate (matchDMY '/' false s),
  fun s => finishDate (matchISO s),
  fun s => finishDate (matchDMY '-' false s),
  fun s => finishDate (matchMDY '/' s),
  fun s => finishDate (matchDMY '.' true s),
  fun s => finishDate (matchDMY '/' true s)]

/-- Transcription of `DocumentExtractor.parse_date`: strip the input, try
each format in order, return the first successful parse, `none` otherwise. -/
def parse_date (date_str : Str) : Option PyDate :=
  date_formats.findSome? fun f => f (pyStrip date_str)

/-! ## Keyed scalar extraction (`DocumentExtractor.extract_pattern`) -/

/-- Dictionary lookup `self.PATTERNS.get(pattern_key, [])`. -/
def patternsFor (pattern_key : String) : List RE :=
  ((PATTERNS.find? (fun p => decide (p.1 = pattern_key))).map (fun p => p.2)).getD []

/-- The pattern loop of `extract_pattern`: first match wins, its first
capture group is stripped and returned. -/
def tryPatternsFirst (text : Str) : List RE → Option Str
  | [] => none
  | p :: ps =>
    match reSearch true true p text with
    | some m => some (pyStrip ((groupStr text m 1).getD []))
    | none => tryPatternsFirst text ps

/-- Transcription of `DocumentExtractor.extract_pattern`. -/
def extract_pattern (text : Str) (pattern_key : String) : Option Str :=
  tryPatternsFirst text (patternsFor pattern_key)

/-! ## Measurement mining (`DocumentExtractor.extract_measurement_tables`) -/

/-- The blank `MeasurementUnit(symbol="")` used when a delimited row has no
unit token. -/
def blankUnit : MeasurementUnit := { symbol := [] }

/-- Body of the delimited-row loop: one `measurement_pattern` match either
appends a result or is skipped (empty/overlong name, unparsable number). -/
def rowStep (text : Str) (results : List MeasurementResult) (m : RMatch) :
    List MeasurementResult :=
  let name := pyStrip ((groupStr text m 1).getD [])
  let value_str := pyReplace ',' '.' ((groupStr text m 2).getD [])
  let unit_str := (groupStr text m 3).getD []
  if name = [] ∨ 100 < name.length then results
  else
    match pyFloat value_str with
    | none => results
    | some value =>
      let unit := if unit_str ≠ [] then get_unit unit_str else blankUnit
      results ++ [{ name := name, measured_value := { value := value, unit := unit } }]

/-- The delimited-row pass of `extract_measurement_tables`. -/
def delimitedRowResults (text : Str) : List MeasurementResult :=
  (finditer false true measPat text).foldl (rowStep text) []

/-- The synthesized name `f"Measurement ({unit_symbol})"`. -/
def unitFallbackName (unit_symbol : Str) : Str :=
  "Measurement (".toList ++ unit_symbol ++ ")".toList

/-- The name derived for a unit-anchored match: the trailing line of up to
50 characters of stripped preceding context, or the synthesized fallback
name when there is no context or the context line is overlong. -/
def unitContextName (text : Str) (unit_symbol : Str) (mstart : Nat) : Str :=
  let start := mstart - 50
  let context := pyStrip (pySlice text start mstart)
  let name0 :=
    if context ≠ [] then pyStrip (lastSplitPiece '\n' context)
    else unitFallbackName unit_symbol
  if 100 < name0.length then unitFallbackName unit_symbol else name0

/-- The result one match of a unit pattern would contribute: the captured
number (comma-normalized, `ValueError` giving `none`) and the context-derived
name. -/
def unitResultOf (text : Str) (unit_symbol : Str) (m : RMatch) : Option MeasurementResult :=
  (pyFloat (pyReplace ',' '.' ((groupStr text m 1).getD []))).map fun value =>
    { name := unitContextName text unit_symbol m.mstart,
      measured_value := { value := value, unit := get_unit unit_symbol } }

/-- Body of the unit-anchored loop: one match of a unit pattern appends its
result unless an existing result already has the same name and numeric
value. -/
def unitStep (text : Str) (unit_symbol : Str) (results : List MeasurementResult)
    (m : RMatch) : List MeasurementResult :=
  match unitResultOf text unit_symbol m with
  | none => results
  | some r =>
    if results.any (fun rr => decide (rr.name = r.name) &&
        decide (rr.measured_value.value = r.measured_value.value)) then
      results
    else
      results ++ [r]

/-- The unit-anchored pass of `extract_measurement_tables`, continuing from
the accumulated list of results. -/
def unitScanResults (text : Str) (init : List MeasurementResult) : List MeasurementResult :=
  UNIT_PATTERNS.foldl
    (fun results ps => (finditer false false ps.1 text).foldl (unitStep text ps.2) results)
    init

/-- Transcription of `DocumentExtractor.extract_measurement_tables`. -/
def extract_measurement_tables (text : Str) : List MeasurementResult :=
  unitScanResults text (delimitedRowResults text)

/-! ## Environmental conditions (`extract_environmental_conditions`) -/

/-- The temperature branch: keyed extraction, comma normalization, float
conversion, fixed Celsius unit.  A falsy (absent or empty) extraction or a
`ValueError` leaves the field unset. -/
def envTemperature (text : Str) : Option MeasuredValue :=
  match extract_pattern text "temperature" with
  | some s =>
    if s = [] then none
    else
      match pyFloat (pyReplace ',' '.' s) with
      | some v => some { value := v, unit := get_unit "°C".toList }
      | none => none
  | none => none

/-- The humidity branch, with the fixed percent-relative-humidity unit. -/
def envHumidity (text : Str) : Option MeasuredValue :=
  match extract_pattern text "humidity" with
  | some s =>
    if s = [] then none
    else
      match pyFloat (pyReplace ',' '.' s) with
      | some v => some { value := v, unit := get_unit "%rh".toList }
      | none => none
  | none => none

/-- The pressure pattern loop (`re.search` with `IGNORECASE` only). -/
def pressureMatchLoop (text : Str) : List RE → Option RMatch
  | [] => none
  | p :: ps =>
    match reSearch true false p text with
    | some m => some m
    | none => pressureMatchLoop text ps

/-- The pressure branch: the captured unit token is used (all pressure
patterns have two groups; the `"hPa"` default covers the impossible
missing-group case, as in the source). -/
def envPressure (text : Str) : Option MeasuredValue :=
  match pressureMatchLoop text (patternsFor "pressure") with
  | none => none
  | some m =>
    match pyFloat (pyReplace ',' '.' ((groupStr text m 1).getD [])) with
    | none => none
    | some v =>
      let pressure_unit := (groupStr text m 2).getD "hPa".toList
      some { value := v, unit := get_unit pressure_unit }

/-- Transcription of `DocumentExtractor.extract_environmental_conditions`:
the record is returned only when at least one branch produced data. -/
def extract_environmental_conditions (text : Str) : Option EnvironmentalConditions :=
  let t := envTemperature text
  let h := envHumidity text
  let p := envPressure text
  if t.isSome || h.isSome || p.isSome then
    some { temperature := t, humidity := h, pressure := p }
  else none

/-! ## Certificate assembly (`DocumentExtractor.parse_certificate`) -/

/-- The base name of a path (`PurePath.name`). -/
def pathName (p : Str) : Str := (p.reverse.takeWhile (fun c => ¬ c = '/')).reverse

/-- The stem of a path (`PurePath.stem`): the name without its last
extension. -/
def pathStem (p : Str) : Str :=
  let n := pathName p
  if (n.drop 1).contains '.' then ((n.reverse.dropWhile (fun c => ¬ c = '.')).drop 1).reverse
  else n

/-- Transcription of `DocumentExtractor.parse_certificate`.  Reading the
file is external I/O; the raw text that `extract_from_file` would return is
passed in as `raw_text`. -/
def parse_certificate (file_path : Str) (raw_text : Str) (lab_name : Str) :
    CalibrationCertificate :=
  let cert_number :=
    match extract_pattern raw_text "certificate_number" with
    | some s => if s = [] then "UNKNOWN-".toList ++ pathStem file_path else s
    | none => "UNKNOWN-".toList ++ pathStem file_path
  let calibration_date :=
    match extract_pattern raw_text "calibration_date" with
    | some s => if s = [] then none else parse_date s
    | none => none
  let certificate_date :=
    match extract_pattern raw_text "certificate_date" with
    | some s => if s = [] then none else parse_date s
    | none => none
  let serial := extract_pattern raw_text "serial_number"
  let manufacturer := extract_pattern raw_text "manufacturer"
  let model := extract_pattern raw_text "model"
  let equipment : EquipmentInfo :=
    { name :=
        match model with
        | some s => if s = [] then "Unknown Equipment".toList else s
        | none => "Unknown Equipment".toList,
      manufacturer := manufacturer,
      model := model,
      serial_number := serial }
  { certificate_number := cert_number,
    certificate_date := certificate_date,
    calibration_date := calibration_date,
    calibration_laboratory := { name := lab_name },
    equipment := equipment,
    environmental_conditions := extract_environmental_conditions raw_text,
    measurement_results := extract_measurement_tables raw_text,
    raw_text := some raw_text,
    source_file := some file_path }

/-! ## Validation (`DCCAgent.validate_certificate`) -/

/-- Python truthiness of an optional string (`None` and `""` are falsy). -/
def optStrFalsy : Option Str → Bool
  | none => true
  | some s => s.isEmpty

/-- Transcription of `DCCAgent.validate_certificate`. -/
def validate_certificate (certificate : CalibrationCertificate) : List Str :=
  let issues : List Str := []
  let issues :=
    if "UNKNOWN".toList.isPrefixOf certificate.certificate_number then
      issues ++ ["Certificate number could not be extracted".toList]
    else issues
  let issues :=
    if certificate.calibration_date = none then
      issues ++ ["Calibration date is missing".toList]
    else issues
  let issues :=
    if optStrFalsy certificate.equipment.serial_number then
      issues ++ ["Equipment serial number is missing".toList]
    else issues
  let issues :=
    if certificate.measurement_results = [] then
      issues ++ ["No measurement results were extracted".toList]
    else if certificate.measurement_results.length < 2 then
      issues ++ ["Very few measurement results extracted - manual review recommended".toList]
    else issues
  let issues :=
    if certificate.environmental_conditions = none then
      issues ++ ["Environmental conditions are missing".toList]
    else issues
  issues

/-! ## XML serialization unit table (`DCCXMLGenerator`) -/

/-- The `UNIT_TO_SI` table of `xml_generator.py`, in source order. -/
def UNIT_TO_SI : List (Str × Str) := [
  ("N".toList, "\\newton".toList),
  ("kN".toList, "\\kilo\\newton".toList),
  ("MN".toList, "\\mega\\newton".toList),
  ("°C".toList, "\\degreeCelsius".toList),
  ("K".toList, "\\kelvin".toList),
  ("Pa".toList, "\\pascal".toList),
  ("kPa".toList, "\\kilo\\pascal".toList),
  ("MPa".toList, "\\mega\\pascal".toList),
  ("bar".toList, "\\bar".toList),
  ("mbar".toList, "\\milli\\bar".toList),
  ("hPa".toList, "\\hecto\\pascal".toList),
  ("m".toList, "\\metre".toList),
  ("mm".toList, "\\milli\\metre".toList),
  ("µm".toList, "\\micro\\metre".toList),
  ("nm".toList, "\\nano\\metre".toList),
  ("kg".toList, "\\kilogram".toList),
  ("g".toList, "\\gram".toList),
  ("mg".toList, "\\milli\\gram".toList),
  ("V".toList, "\\volt".toList),
  ("mV".toList, "\\milli\\volt".toList),
  ("A".toList, "\\ampere".toList),
  ("mA".toList, "\\milli\\ampere".toList),
  ("Ω".toList, "\\ohm".toList),
  ("s".toList, "\\second".toList),
  ("ms".toList, "\\milli\\second".toList),
  ("min".toList, "\\minute".toList),
  ("h".toList, "\\hour".toList),
  ("Hz".toList, "\\hertz".toList),
  ("kHz".toList, "\\kilo\\hertz".toList),
  ("MHz".toList, "\\mega\\hertz".toList),
  ("%".toList, "\\percent".toList),
  ("%rh".toList, "\\percent".toList)]

/-- The unit text emitted by `_create_value_element`:
`self.UNIT_TO_SI.get(value.unit.symbol, value.unit.symbol)`. -/
def valueElementUnitText (value : MeasuredValue) : Str :=
  ((UNIT_TO_SI.find? (fun p => decide (p.1 = value.unit.symbol))).map (fun p => p.2)).getD
    value.unit.symbol

/-! ## Generic lemmas about association-list lookup -/

/-- Looking up a present key in an association list with distinct keys
returns its entry. -/
theorem find?_pair_of_mem {α β : Type} [DecidableEq α] {l : List (α × β)}
    {a : α} {b : β} (hnd : (l.map Prod.fst).Nodup) (hmem : (a, b) ∈ l) :
    l.find? (fun p => decide (p.1 = a)) = some (a, b) := by
  induction l with
  | nil => cases hmem
  | cons x t ih =>
    by_cases hx : x.1 = a
    · have hxab : x = (a, b) := by
        rcases List.mem_cons.mp hmem with h | h
        · exact h.symm
        · exfalso
          have : a ∈ t.map Prod.fst := List.mem_map.mpr ⟨(a, b), h, rfl⟩
          exact (List.nodup_cons.mp hnd).1 (hx ▸ this)
      subst hxab
      simp [List.find?, hx]
    · have hmem' : (a, b) ∈ t := by
        rcases List.mem_cons.mp hmem with h | h
        · exact absurd (congrArg Prod.fst h.symm) hx
        · exact h
      simpa [List.find?, hx] using ih (List.nodup_cons.mp hnd).2 hmem'

/-- Looking up an absent key in an association list fails. -/
theorem find?_eq_none_of_not_mem_keys {α β : Type} [DecidableEq α]
    {l : List (α × β)} {a : α} (h : a ∉ l.map Prod.fst) :
    l.find? (fun p => decide (p.1 = a)) = none := by
  rw [List.find?_eq_none]
  intro x hx
  simp only [decide_eq_true_eq]
  intro hxa
  exact h (List.mem_map.mpr ⟨x, hx, hxa⟩)

/-! ## Claim C3: the unit registry never raises and resolves as documented -/

/-- C3: for every string symbol, `get_unit` is total and returns a
descriptor whose symbol is the input; when the symbol is a key of
`COMMON_UNITS` it returns exactly that table entry (hence the documented
name and SI base), and otherwise a descriptor with no name and no SI base. -/
theorem get_unit_resolution (symbol : Str) :
    (get_unit symbol).symbol = symbol ∧
    (∀ u, lookupCommonUnit symbol = some u → get_unit symbol = u) ∧
    (lookupCommonUnit symbol = none →
      get_unit symbol = { symbol := symbol, name := none, si_base := none }) := by
  refine ⟨?_, ?_, ?_⟩
  · unfold get_unit
    cases hu : lookupCommonUnit symbol with
    | none => rfl
    | some u =>
      obtain ⟨p, hfind, hp⟩ :
          ∃ p, COMMON_UNITS.find? (fun q => decide (q.1 = symbol)) = some p ∧ p.2 = u := by
        unfold lookupCommonUnit at hu
        cases hfind : COMMON_UNITS.find? (fun q => decide (q.1 = symbol)) with
        | none => rw [hfind] at hu; cases hu
        | some p => rw [hfind] at hu; exact ⟨p, rfl, by simpa using hu⟩
      have hkey : p.1 = symbol := by
        have := List.find?_some hfind
        simpa using this
      have hmem : p ∈ COMMON_UNITS := List.mem_of_find?_eq_some hfind
      have hsym : ∀ q ∈ COMMON_UNITS, q.2.symbol = q.1 := by decide
      simp only [hp ▸ (hsym p hmem), hkey]
  · intro u hu
    unfold get_unit
    rw [hu]
  · intro hu
    unfold get_unit
    rw [hu]

/-- Witness for `get_unit_resolution`: the known symbol `kN` resolves to its
documented entry and an unknown symbol decays to a symbol-only record. -/
theorem get_unit_resolution_witness :
    lookupCommonUnit "kN".toList = some (mkUnit "kN" "kilonewton" "10³·kg·m/s²") ∧
    get_unit "kN".toList = mkUnit "kN" "kilonewton" "10³·kg·m/s²" ∧
    lookupCommonUnit "XYZ".toList = none ∧
    get_unit "XYZ".toList = { symbol := "XYZ".toList, name := none, si_base := none } :=
  ⟨by decide,
   (get_unit_resolution "kN".toList).2.1 _ (by decide),
   by decide,
   (get_unit_resolution "XYZ".toList).2.2 (by decide)⟩

/-! ## Claim C9: XML unit text comes from the fixed SI-token table -/

/-- C9: the unit text of a serialized measured value is the `UNIT_TO_SI`
entry for the unit's symbol (in particular `kN` yields the two-part token),
and any symbol absent from that table is emitted unchanged. -/
theorem valueElementUnitText_spec (value : MeasuredValue) :
    (∀ t, (value.unit.symbol, t) ∈ UNIT_TO_SI → valueElementUnitText value = t) ∧
    (value.unit.symbol ∉ UNIT_TO_SI.map Prod.fst →
      valueElementUnitText value = value.unit.symbol) ∧
    (value.unit.symbol = "kN".toList →
      valueElementUnitText value = "\\kilo\\newton".toList) := by
  have hnd : (UNIT_TO_SI.map Prod.fst).Nodup := by decide
  refine ⟨?_, ?_, ?_⟩
  · intro t hmem
    unfold valueElementUnitText
    rw [find?_pair_of_mem hnd hmem]
    rfl
  · intro habs
    unfold valueElementUnitText
    rw [find?_eq_none_of_not_mem_keys habs]
    rfl
  · intro hkn
    unfold valueElementUnitText
    rw [hkn, find?_pair_of_mem hnd
      (show ("kN".toList, "\\kilo\\newton".toList) ∈ UNIT_TO_SI by decide)]
    rfl

/-- Witness for `valueElementUnitText_spec`: a `kN` value serializes with
the kilo+newton token and an unknown symbol passes through unchanged. -/
theorem valueElementUnitText_spec_witness :
    valueElementUnitText { value := 1, unit := get_unit "kN".toList } = "\\kilo\\newton".toList ∧
    valueElementUnitText { value := 1, unit := { symbol := "widget".toList } } = "widget".toList :=
  ⟨(valueElementUnitText_spec { value := 1, unit := get_unit "kN".toList }).2.2 (by decide),
   (valueElementUnitText_spec { value := 1, unit := { symbol := "widget".toList } }).2.1
     (by decide)⟩

/-! ## Claims C6 and C7: the validator -/

/-- The five checks of the validator as one concatenation of conditional
singleton messages (shared by the validator claims). -/
theorem validate_certificate_eq (c : CalibrationCertificate) :
    validate_certificate c =
      (if "UNKNOWN".toList.isPrefixOf c.certificate_number then
        ["Certificate number could not be extracted".toList] else []) ++
      (if c.calibration_date = none then
        ["Calibration date is missing".toList] else []) ++
      (if optStrFalsy c.equipment.serial_number then
        ["Equipment serial number is missing".toList] else []) ++
      (if c.measurement_results = [] then
        ["No measurement results were extracted".toList]
       else if c.measurement_results.length < 2 then
        ["Very few measurement results extracted - manual review recommended".toList]
       else []) ++
      (if c.environmental_conditions = none then
        ["Environmental conditions are missing".toList] else []) := by
  unfold validate_certificate
  split_ifs <;> simp

/-- C6: the validator is total, runs its checks in the fixed order with the
fixed messages (the measurement check warns about an empty result list and
otherwise about a single result), and returns the empty list exactly when no
check triggers. -/
theorem validate_certificate_spec (c : CalibrationCertificate) :
    validate_certificate c =
      (if "UNKNOWN".toList.isPrefixOf c.certificate_number then
        ["Certificate number could not be extracted".toList] else []) ++
      (if c.calibration_date = none then
        ["Calibration date is missing".toList] else []) ++
      (if optStrFalsy c.equipment.serial_number then
        ["Equipment serial number is missing".toList] else []) ++
      (if c.measurement_results = [] then
        ["No measurement results were extracted".toList]
       else if c.measurement_results.length < 2 then
        ["Very few measurement results extracted - manual review recommended".toList]
       else []) ++
      (if c.environmental_conditions = none then
        ["Environmental conditions are missing".toList] else []) ∧
    (validate_certificate c = [] ↔
      ¬ "UNKNOWN".toList.isPrefixOf c.certificate_number ∧
      c.calibration_date ≠ none ∧
      ¬ optStrFalsy c.equipment.serial_number ∧
      2 ≤ c.measurement_results.length ∧
      c.environmental_conditions ≠ none) := by
  refine ⟨validate_certificate_eq c, ?_⟩
  rw [validate_certificate_eq c]
  constructor
  · intro h
    split_ifs at h <;> simp_all
  · intro h
    obtain ⟨h1, h2, h3, h4, h5⟩ := h
    have hne : ¬ c.measurement_results = [] := by
      intro hnil
      rw [hnil] at h4
      simp at h4
    have hlt : ¬ c.measurement_results.length < 2 := by omega
    rw [List.isPrefixOf_iff_prefix] at h1
    simp [h2, h3, h5, hne, hlt, List.isPrefixOf_iff_prefix]
    simpa using h1

/-- C7: when no certificate-number pattern matches, the assembled
certificate's number is `"UNKNOWN-"` followed by the source file's stem, and
validating that certificate reports the fixed extraction warning. -/
theorem unknown_certificate_number_flagged (file_path raw_text lab_name : Str)
    (h : extract_pattern raw_text "certificate_number" = none) :
    (parse_certificate file_path raw_text lab_name).certificate_number =
      "UNKNOWN-".toList ++ pathStem file_path ∧
    "Certificate number could not be extracted".toList ∈
      validate_certificate (parse_certificate file_path raw_text lab_name) := by
  have hnum : (parse_certificate file_path raw_text lab_name).certificate_number =
      "UNKNOWN-".toList ++ pathStem file_path := by
    unfold parse_certificate
    rw [h]
  refine ⟨hnum, ?_⟩
  have hpref : "UNKNOWN".toList.isPrefixOf
      (parse_certificate file_path raw_text lab_name).certificate_number = true := by
    rw [hnum, List.isPrefixOf_iff_prefix]
    exact List.IsPrefix.trans (by decide) (List.prefix_append _ _)
  rw [validate_certificate_eq, hpref]
  simp

/-- Witness for `unknown_certificate_number_flagged`: the one-character text
`"x"` matches no certificate-number pattern, and a source file named
`unit7.pdf` yields the sentinel number `"UNKNOWN-unit7"` with the warning. -/
theorem unknown_certificate_number_flagged_witness :
    extract_pattern "x".toList "certificate_number" = none ∧
    (parse_certificate "unit7.pdf".toList "x".toList "Lab".toList).certificate_number =
      "UNKNOWN-unit7".toList ∧
    "Certificate number could not be extracted".toList ∈
      validate_certificate (parse_certificate "unit7.pdf".toList "x".toList "Lab".toList) := by
  have h : extract_pattern "x".toList "certificate_number" = none := by decide
  have hc := unknown_certificate_number_flagged "unit7.pdf".toList "x".toList "Lab".toList h
  exact ⟨h, hc.1.trans (by decide), hc.2⟩

/-! ## Claim C8: environmental conditions -/

/-- C8: the extractor returns no conditions record exactly when none of
temperature, humidity and pressure could be extracted, and whenever a record
is returned its three fields are exactly the per-quantity extraction
results. -/
theorem environmental_conditions_spec (text : Str) :
    (extract_environmental_conditions text = none ↔
      envTemperature text = none ∧ envHumidity text = none ∧ envPressure text = none) ∧
    (∀ c, extract_environmental_conditions text = some c →
      c.temperature = envTemperature text ∧ c.humidity = envHumidity text ∧
      c.pressure = envPressure text) := by
  unfold extract_environmental_conditions
  cases ht : envTemperature text <;> cases hh : envHumidity text <;>
    cases hp : envPressure text <;>
    simp_all

/-- Witness for `environmental_conditions_spec`: a text with only a
temperature yields a record populated exactly at the temperature field. -/
theorem environmental_conditions_spec_witness :
    extract_environmental_conditions "Temperature: 23.5 °C".toList =
      some { temperature := some { value := mkRat 47 2, unit := get_unit "°C".toList } } ∧
    (({ temperature := some { value := mkRat 47 2, unit := get_unit "°C".toList } } :
        EnvironmentalConditions).temperature = envTemperature "Temperature: 23.5 °C".toList ∧
      ({ temperature := some { value := mkRat 47 2, unit := get_unit "°C".toList } } :
        EnvironmentalConditions).humidity = envHumidity "Temperature: 23.5 °C".toList ∧
      ({ temperature := some { value := mkRat 47 2, unit := get_unit "°C".toList } } :
        EnvironmentalConditions).pressure = envPressure "Temperature: 23.5 °C".toList) := by
  have h : extract_environmental_conditions "Temperature: 23.5 °C".toList =
      some { temperature := some { value := mkRat 47 2, unit := get_unit "°C".toList } } := by
    decide
  exact ⟨h, (environmental_conditions_spec "Temperature: 23.5 °C".toList).2 _ h⟩

/-! ## Claim C4: keyed scalar extraction priority -/

/-- The pattern loop returns `none` exactly when every pattern fails. -/
theorem tryPatternsFirst_none_iff (text : Str) (l : List RE) :
    tryPatternsFirst text l = none ↔ ∀ p ∈ l, reSearch true true p text = none := by
  induction l with
  | nil => simp [tryPatternsFirst]
  | cons p ps ih =>
    unfold tryPatternsFirst
    cases h : reSearch true true p text with
    | some m => simp [h]
    | none => simpa [h] using ih

/-- When every pattern before index `i` fails and pattern `i` matches, the
pattern loop returns the stripped first capture group of that match. -/
theorem tryPatternsFirst_indexed (text : Str) :
    ∀ (l : List RE) (i : Nat) (m : RMatch), i < l.length →
      (∀ j, j < i → reSearch true true (l.getD j .eps) text = none) →
      reSearch true true (l.getD i .eps) text = some m →
      tryPatternsFirst text l = some (pyStrip ((groupStr text m 1).getD [])) := by
  intro l
  induction l with
  | nil => intro i m hi; cases hi
  | cons p ps ih =>
    intro i m hi hprev hm
    cases i with
    | zero =>
      simp only [List.getD_cons_zero] at hm
      unfold tryPatternsFirst
      rw [hm]
    | succ n =>
      have hp0 : reSearch true true p text = none := by
        have := hprev 0 (Nat.succ_pos n)
        simpa using this
      unfold tryPatternsFirst
      rw [hp0]
      exact ih n m (Nat.lt_of_succ_lt_succ hi)
        (fun j hj => by simpa using hprev (j + 1) (Nat.succ_lt_succ hj))
        (by simpa using hm)

/-- C4: `extract_pattern` tries the key's patterns in their listed order and
returns the whitespace-trimmed first capture group of the first matching
pattern; when no pattern matches it returns `none`.  In particular a text
containing both a labeled certificate-number form and a bare alphanumeric
token yields the labeled form's capture. -/
theorem extract_pattern_priority (text : Str) (pattern_key : String) :
    (extract_pattern text pattern_key = none ↔
      ∀ p ∈ patternsFor pattern_key, reSearch true true p text = none) ∧
    (∀ i m, i < (patternsFor pattern_key).length →
      (∀ j, j < i → reSearch true true ((patternsFor pattern_key).getD j .eps) text = none) →
      reSearch true true ((patternsFor pattern_key).getD i .eps) text = some m →
      extract_pattern text pattern_key = some (pyStrip ((groupStr text m 1).getD []))) ∧
    extract_pattern "A1B2\nCertificate No.: CAL-1".toList "certificate_number" =
      some "CAL-1".toList := by
  refine ⟨tryPatternsFirst_none_iff text (patternsFor pattern_key),
    fun i m hi hprev hm => tryPatternsFirst_indexed text (patternsFor pattern_key) i m hi hprev hm,
    by decide⟩

/-- Witness for `extract_pattern_priority`: on the demonstration text the
first certificate-number pattern matches at offset 5 capturing `CAL-1`, so
the indexed clause applies with `i = 0`. -/
theorem extract_pattern_priority_witness :
    reSearch true true ((patternsFor "certificate_number").getD 0 .eps)
      "A1B2\nCertificate No.: CAL-1".toList = some ⟨5, 27, [(1, 22, 27)]⟩ ∧
    extract_pattern "A1B2\nCertificate No.: CAL-1".toList "certificate_number" =
      some (pyStrip ((groupStr "A1B2\nCertificate No.: CAL-1".toList ⟨5, 27, [(1, 22, 27)]⟩ 1).getD [])) := by
  refine ⟨by decide, ?_⟩
  exact (extract_pattern_priority "A1B2\nCertificate No.: CAL-1".toList "certificate_number").2.1
    0 ⟨5, 27, [(1, 22, 27)]⟩ (by decide) (fun j hj => absurd hj (Nat.not_lt_zero j)) (by decide)

/-! ## Claim C1: deduplication of measurement results -/

/-- Default element for positional access to result lists. -/
def dummyResult : MeasurementResult :=
  { name := [], measured_value := { value := 0, unit := blankUnit } }

/-- No element at or beyond index `n0` repeats the name and numeric value of
any earlier element. -/
def NoDupFrom (n0 : Nat) (l : List MeasurementResult) : Prop :=
  ∀ i j, j < i → i < l.length → n0 ≤ i →
    ¬ ((l.getD i dummyResult).name = (l.getD j dummyResult).name ∧
       (l.getD i dummyResult).measured_value.value =
         (l.getD j dummyResult).measured_value.value)

/-- Appending an element that duplicates no existing entry preserves the
invariant. -/
theorem noDupFrom_append (n0 : Nat) (l : List MeasurementResult) (r : MeasurementResult)
    (h : NoDupFrom n0 l)
    (hfresh : ∀ rr ∈ l, ¬ (rr.name = r.name ∧ rr.measured_value.value = r.measured_value.value)) :
    NoDupFrom n0 (l ++ [r]) := by
  intro i j hj hi hn0
  rw [List.length_append, List.length_singleton] at hi
  by_cases hil : i < l.length
  · rw [List.getD_append _ _ _ _ hil, List.getD_append _ _ _ _ (lt_trans hj hil)]
    exact h i j hj hil hn0
  · have hieq : i = l.length := by omega
    have hjl : j < l.length := by omega
    rw [hieq, List.getD_append _ _ _ _ hjl]
    have hr : (l ++ [r]).getD l.length dummyResult = r := by
      rw [List.getD_append_right l [r] dummyResult l.length (le_refl _)]
      simp
    rw [hr]
    intro hcontr
    have hjmem : l.getD j dummyResult ∈ l := by
      rw [List.getD_eq_getElem l dummyResult hjl]
      exact List.getElem_mem hjl
    exact hfresh (l.getD j dummyResult) hjmem ⟨hcontr.1.symm, hcontr.2.symm⟩

/-- One step of the unit-anchored loop preserves the invariant. -/
theorem unitStep_noDupFrom (text unit_symbol : Str) (n0 : Nat)
    (l : List MeasurementResult) (m : RMatch) (h : NoDupFrom n0 l) :
    NoDupFrom n0 (unitStep text unit_symbol l m) := by
  unfold unitStep
  cases hr : unitResultOf text unit_symbol m with
  | none => exact h
  | some r =>
    by_cases hdup : l.any (fun rr => decide (rr.name = r.name) &&
        decide (rr.measured_value.value = r.measured_value.value)) = true
    · simpa [hdup] using h
    · simp only [hdup, if_false]
      refine noDupFrom_append n0 l r h ?_
      intro rr hrr hcontr
      apply hdup
      rw [List.any_eq_true]
      exact ⟨rr, hrr, by simp [hcontr.1, hcontr.2]⟩

/-- A predicate preserved by each fold step is preserved by the fold. -/
theorem foldl_preserve {α β : Type} (P : α → Prop) (f : α → β → α)
    (hf : ∀ acc x, P acc → P (f acc x)) :
    ∀ (xs : List β) (acc : α), P acc → P (xs.foldl f acc) := by
  intro xs
  induction xs with
  | nil => intro acc h; exact h
  | cons x t ih => intro acc h; exact ih (f acc x) (hf acc x h)

/-- Corrected C1 (see the counterexample below): deduplication protects the
unit-anchored pass only — every result located at or after the boundary
between delimited-row results and unit-anchored results differs, in name or
in numeric value, from every result before it. -/
theorem unit_anchored_results_deduplicated (text : Str) (i j : Nat) (hj : j < i)
    (hi : i < (extract_measurement_tables text).length)
    (hbase : (delimitedRowResults text).length ≤ i) :
    ¬ (((extract_measurement_tables text).getD i dummyResult).name =
         ((extract_measurement_tables text).getD j dummyResult).name ∧
       ((extract_measurement_tables text).getD i dummyResult).measured_value.value =
         ((extract_measurement_tables text).getD j dummyResult).measured_value.value) := by
  have hinv : NoDupFrom (delimitedRowResults text).length (extract_measurement_tables text) := by
    unfold extract_measurement_tables unitScanResults
    refine foldl_preserve (NoDupFrom (delimitedRowResults text).length) _
      (fun acc ps hacc => ?_) UNIT_PATTERNS (delimitedRowResults text) ?_
    · exact foldl_preserve (NoDupFrom (delimitedRowResults text).length)
        (unitStep text ps.2) (fun acc2 m h2 => unitStep_noDupFrom text ps.2 _ acc2 m h2)
        (finditer false false ps.1 text) acc hacc
    · intro i j hj hi hn0
      omega
  exact hinv i j hj hi hbase

/-- Counterexample to C1 as stated: on this text the delimited-row pass
alone produces two matches with identical name `"B"` and identical value
`1`, and both survive into the final sequence — the dedup guard never runs
inside the delimited-row pass. -/
theorem measurement_dedup_counterexample :
    extract_measurement_tables "B:1\nB:1\nB:1\nB:1\nB:1\nB:1".toList =
      [{ name := "B".toList, measured_value := { value := 1, unit := { symbol := "B".toList } } },
       { name := "B".toList, measured_value := { value := 1, unit := { symbol := "B".toList } } }] ∧
    (extract_measurement_tables "B:1\nB:1\nB:1\nB:1\nB:1\nB:1".toList).countP
      (fun r => decide (r.name = "B".toList) && decide (r.measured_value.value = 1)) ≠ 1 := by
  constructor
  · decide
  · decide

/-- Witness for `unit_anchored_results_deduplicated`: on `"5 N\n3 kN"` the
delimited-row pass is empty and the two unit-anchored results differ. -/
theorem unit_anchored_results_deduplicated_witness :
    (0 : Nat) < 1 ∧
    1 < (extract_measurement_tables "5 N\n3 kN".toList).length ∧
    (delimitedRowResults "5 N\n3 kN".toList).length ≤ 1 ∧
    ¬ (((extract_measurement_tables "5 N\n3 kN".toList).getD 1 dummyResult).name =
         ((extract_measurement_tables "5 N\n3 kN".toList).getD 0 dummyResult).name ∧
       ((extract_measurement_tables "5 N\n3 kN".toList).getD 1 dummyResult).measured_value.value =
         ((extract_measurement_tables "5 N\n3 kN".toList).getD 0 dummyResult).measured_value.value) :=
  ⟨Nat.zero_lt_one, by decide, by decide,
   unit_anchored_results_deduplicated "5 N\n3 kN".toList 1 0 Nat.zero_lt_one
     (by decide) (by decide)⟩

/-! ## Claim C2: order of the mined measurement results -/

/-- Case analysis for `Option.orElse` results. -/
theorem orElse_eq_some_cases {α : Type} {x y : Option α} {r : α}
    (h : (x <|> y) = some r) : x = some r ∨ (x = none ∧ y = some r) := by
  cases x with
  | some v => left; simpa using h
  | none => right; exact ⟨rfl, by simpa using h⟩

/-- The matcher only moves forward: a successful match invokes its
continuation at a position no smaller than the starting one. -/
theorem mat_forward (text : Str) (ci ml : Bool) :
    ∀ (fuel : Nat) (re : RE) (pos : Nat) (caps : List (Nat × Nat × Nat))
      (k : Nat → List (Nat × Nat × Nat) → Option RMatch) (r : RMatch),
      mat text ci ml fuel re pos caps k = some r →
      ∃ p c, pos ≤ p ∧ k p c = some r := by
  intro fuel
  induction fuel with
  | zero => intro re pos caps k r h; simp [mat] at h
  | succ f ih =>
    intro re pos caps k r h
    cases re with
    | eps => exact ⟨pos, caps, le_refl pos, h⟩
    | cls neg items =>
      simp only [mat] at h
      cases hc : text[pos]? with
      | none => rw [hc] at h; cases h
      | some c =>
        rw [hc] at h
        dsimp only at h
        by_cases hcm : clsMatch ci neg items c = true
        · rw [if_pos hcm] at h
          exact ⟨pos + 1, caps, Nat.le_succ pos, h⟩
        · rw [if_neg hcm] at h; cases h
    | cat r1 r2 =>
      simp only [mat] at h
      obtain ⟨p1, c1, hp1, h1⟩ := ih r1 pos caps _ r h
      obtain ⟨p2, c2, hp2, h2⟩ := ih r2 p1 c1 k r h1
      exact ⟨p2, c2, le_trans hp1 hp2, h2⟩
    | alt r1 r2 =>
      simp only [mat] at h
      rcases orElse_eq_some_cases h with h1 | ⟨_, h2⟩
      · exact ih r1 pos caps k r h1
      · exact ih r2 pos caps k r h2
    | star lzy rr =>
      simp only [mat] at h
      have hbody : mat text ci ml f rr pos caps
          (fun p c => if p = pos then none
            else mat text ci ml f (.star lzy rr) p c k) = some r →
          ∃ p c, pos ≤ p ∧ k p c = some r := by
        intro hb
        obtain ⟨p1, c1, hp1, h1⟩ := ih rr pos caps _ r hb
        by_cases hpp : p1 = pos
        · rw [if_pos hpp] at h1; cases h1
        · rw [if_neg hpp] at h1
          obtain ⟨p2, c2, hp2, h2⟩ := ih (.star lzy rr) p1 c1 k r h1
          exact ⟨p2, c2, le_trans hp1 hp2, h2⟩
      cases lzy with
      | true =>
        rw [if_pos rfl] at h
        rcases orElse_eq_some_cases h with h1 | ⟨_, h2⟩
        · exact ⟨pos, caps, le_refl pos, h1⟩
        · exact hbody h2
      | false =>
        rw [if_neg Bool.false_ne_true] at h
        rcases orElse_eq_some_cases h with h1 | ⟨_, h2⟩
        · exact hbody h1
        · exact ⟨pos, caps, le_refl pos, h2⟩
    | opt rr =>
      simp only [mat] at h
      rcases orElse_eq_some_cases h with h1 | ⟨_, h2⟩
      · exact ih rr pos caps k r h1
      · exact ⟨pos, caps, le_refl pos, h2⟩
    | grp i rr =>
      simp only [mat] at h
      obtain ⟨p1, c1, hp1, h1⟩ := ih rr pos caps _ r h
      exact ⟨p1, (i, pos, p1) :: c1, hp1, h1⟩
    | bol =>
      simp only [mat] at h
      split at h
      · exact ⟨pos, caps, le_refl pos, h⟩
      · cases h
    | eol =>
      simp only [mat] at h
      split at h
      · exact ⟨pos, caps, le_refl pos, h⟩
      · cases h
    | nla rr =>
      simp only [mat] at h
      cases hm : mat text ci ml f rr pos caps (fun p c => some ⟨pos, p, c⟩) with
      | some v => rw [hm] at h; cases h
      | none => rw [hm] at h; exact ⟨pos, caps, le_refl pos, h⟩

/-- A match found from some start position starts there or later and ends
at or after its own start. -/
theorem searchFrom_forward (ci ml : Bool) (re : RE) (text : Str) :
    ∀ (rem pos : Nat) (m : RMatch), searchFrom ci ml re text rem pos = some m →
      pos ≤ m.mstart ∧ m.mstart ≤ m.mend := by
  intro rem
  induction rem with
  | zero => intro pos m h; simp [searchFrom] at h
  | succ n ih =>
    intro pos m h
    simp only [searchFrom] at h
    rcases orElse_eq_some_cases h with h1 | ⟨_, h2⟩
    · obtain ⟨p, c, hp, hk⟩ := mat_forward text ci ml (engineFuel text) re pos [] _ m h1
      have hm : m = ⟨pos, p, c⟩ := by
        have := hk
        simpa using this.symm
      rw [hm]
      exact ⟨le_refl pos, hp⟩
    · have := ih (pos + 1) m h2
      exact ⟨le_trans (Nat.le_succ pos) this.1, this.2⟩

/-- The iterator produces matches at strictly increasing start offsets, all
at or after the position it resumed from. -/
theorem finditerFrom_facts (ci ml : Bool) (re : RE) (text : Str) :
    ∀ (fuel pos : Nat),
      List.Chain' (fun a b => a.mstart < b.mstart) (finditerFrom ci ml re text fuel pos) ∧
      ∀ m ∈ finditerFrom ci ml re text fuel pos, pos ≤ m.mstart := by
  intro fuel
  induction fuel with
  | zero => intro pos; simp [finditerFrom]
  | succ f ih =>
    intro pos
    simp only [finditerFrom]
    cases hs : reSearchAt ci ml re text pos with
    | none => simp
    | some m =>
      have hm := searchFrom_forward ci ml re text _ pos m hs
      have hlt : m.mstart < (if m.mend = m.mstart then m.mstart + 1 else m.mend) := by
        by_cases he : m.mend = m.mstart
        · rw [if_pos he]; omega
        · rw [if_neg he]; omega
      constructor
      · rw [List.chain'_cons']
        refine ⟨?_, (ih _).1⟩
        intro y hy
        have hmem := List.mem_of_mem_head? hy
        have := (ih (if m.mend = m.mstart then m.mstart + 1 else m.mend)).2 y hmem
        omega
      · intro x hx
        rcases List.mem_cons.mp hx with rfl | hx'
        · exact hm.1
        · have := (ih _).2 x hx'
          omega

/-- The undeduplicated results one unit pattern contributes, in the order
its matches occur in the text. -/
def unitAllResults (text : Str) (ps : RE × Str) : List MeasurementResult :=
  (finditer false false ps.1 text).filterMap (unitResultOf text ps.2)

/-- All unit-anchored candidate results, grouped by pattern in
`UNIT_PATTERNS` order. -/
def unitAllJoined (text : Str) : List MeasurementResult :=
  (UNIT_PATTERNS.map (unitAllResults text)).flatten

/-- Start offsets of the delimited-row matches. -/
def measStarts (text : Str) : List Nat :=
  (finditer false true measPat text).map RMatch.mstart

/-- Start offsets of every unit pattern's matches, one list per pattern. -/
def unitScanStarts (text : Str) : List (List Nat) :=
  UNIT_PATTERNS.map (fun ps => (finditer false false ps.1 text).map RMatch.mstart)

/-- The unit-anchored loop for one pattern only appends, and what it appends
is a subsequence of that pattern's candidate results. -/
theorem foldl_unitStep_append (text sym : Str) :
    ∀ (ms : List RMatch) (acc : List MeasurementResult),
      ∃ rest, ms.foldl (unitStep text sym) acc = acc ++ rest ∧
        rest.Sublist (ms.filterMap (unitResultOf text sym)) := by
  intro ms
  induction ms with
  | nil => intro acc; exact ⟨[], by simp, by simp⟩
  | cons m t ih =>
    intro acc
    simp only [List.foldl_cons]
    cases hr : unitResultOf text sym m with
    | none =>
      obtain ⟨rest, heq, hsub⟩ := ih acc
      refine ⟨rest, ?_, ?_⟩
      · rw [show unitStep text sym acc m = acc by simp [unitStep, hr]]
        exact heq
      · simpa [List.filterMap_cons, hr] using hsub
    | some r =>
      by_cases hdup : acc.any (fun rr => decide (rr.name = r.name) &&
          decide (rr.measured_value.value = r.measured_value.value)) = true
      · obtain ⟨rest, heq, hsub⟩ := ih acc
        refine ⟨rest, ?_, ?_⟩
        · rw [show unitStep text sym acc m = acc by simp [unitStep, hr, hdup]]
          exact heq
        · rw [List.filterMap_cons, hr]
          exact hsub.cons r
      · obtain ⟨rest, heq, hsub⟩ := ih (acc ++ [r])
        refine ⟨r :: rest, ?_, ?_⟩
        · rw [show unitStep text sym acc m = acc ++ [r] by simp [unitStep, hr, hdup]]
          rw [heq, List.append_assoc]
          rfl
        · rw [List.filterMap_cons, hr]
          exact hsub.cons₂ r

/-- The whole unit-anchored pass only appends, and what it appends is a
subsequence of the pattern-ordered candidate results. -/
theorem unitScan_append (text : Str) :
    ∀ (pats : List (RE × Str)) (acc : List MeasurementResult),
      ∃ rest,
        pats.foldl
          (fun results ps => (finditer false false ps.1 text).foldl (unitStep text ps.2) results)
          acc = acc ++ rest ∧
        rest.Sublist ((pats.map (unitAllResults text)).flatten) := by
  intro pats
  induction pats with
  | nil => intro acc; exact ⟨[], by simp, by simp⟩
  | cons ps t ih =>
    intro acc
    simp only [List.foldl_cons]
    obtain ⟨r1, h1, hs1⟩ := foldl_unitStep_append text ps.2 (finditer false false ps.1 text) acc
    obtain ⟨r2, h2, hs2⟩ := ih (acc ++ r1)
    refine ⟨r1 ++ r2, ?_, ?_⟩
    · rw [h1, h2, List.append_assoc]
    · rw [List.map_cons, List.flatten_cons]
      exact List.Sublist.append hs1 hs2

/-- Corrected C2 (see the counterexample below): the final sequence is the
delimited-row results — whose generating matches occur at strictly
increasing text offsets — followed by the surviving unit-anchored results
as a subsequence of the candidates grouped by unit pattern in the fixed
`UNIT_PATTERNS` priority order, each pattern's matches again at strictly
increasing text offsets. -/
theorem measurement_tables_order (text : Str) :
    ∃ rest, extract_measurement_tables text = delimitedRowResults text ++ rest ∧
      rest.Sublist (unitAllJoined text) ∧
      List.Chain' (fun a b => a < b) (measStarts text) ∧
      (unitScanStarts text).Forall (List.Chain' (fun a b => a < b)) := by
  obtain ⟨rest, heq, hsub⟩ := unitScan_append text UNIT_PATTERNS (delimitedRowResults text)
  refine ⟨rest, heq, hsub, ?_, ?_⟩
  · unfold measStarts
    rw [List.chain'_map]
    exact (finditerFrom_facts false true measPat text (text.length + 1) 0).1
  · rw [List.forall_iff_forall_mem]
    intro x hx
    unfold unitScanStarts at hx
    obtain ⟨ps, _, hps⟩ := List.mem_map.mp hx
    rw [← hps, List.chain'_map]
    exact (finditerFrom_facts false false ps.1 text (text.length + 1) 0).1

/-- Counterexample to C2 as stated: on `"5 N\n3 kN"` there are no
delimited-row results, the `kN` pattern's only match starts at offset 4 and
the `N` pattern's only match starts at offset 0, yet the result of the
`kN` match (value 3) is listed before the result of the `N` match
(value 5) — unit-anchored results are ordered by pattern priority, not by
position in the text. -/
theorem measurement_order_counterexample :
    delimitedRowResults "5 N\n3 kN".toList = [] ∧
    extract_measurement_tables "5 N\n3 kN".toList =
      [{ name := "5 N".toList,
         measured_value := { value := 3, unit := get_unit "kN".toList } },
       { name := "Measurement (N)".toList,
         measured_value := { value := 5, unit := get_unit "N".toList } }] ∧
    (finditer false false (UNIT_PATTERNS.getD 0 (.eps, [])).1 "5 N\n3 kN".toList).map
      RMatch.mstart = [4] ∧
    (finditer false false (UNIT_PATTERNS.getD 2 (.eps, [])).1 "5 N\n3 kN".toList).map
      RMatch.mstart = [0] := by
  refine ⟨by decide, by decide, by decide, by decide⟩


/-! ## Claim C10: shape of mined measurement results -/

/-- Stripping never lengthens a string. -/
theorem pyStrip_length_le (l : Str) : (pyStrip l).length ≤ l.length := by
  unfold pyStrip
  calc ((l.dropWhile isPySpace).reverse.dropWhile isPySpace).reverse.length
      = ((l.dropWhile isPySpace).reverse.dropWhile isPySpace).length := List.length_reverse _
    _ ≤ (l.dropWhile isPySpace).reverse.length := (List.dropWhile_sublist _).length_le
    _ = (l.dropWhile isPySpace).length := List.length_reverse _
    _ ≤ l.length := (List.dropWhile_sublist _).length_le

/-- The last split piece never lengthens a string. -/
theorem lastSplitPiece_length_le (sep : Char) (l : Str) :
    (lastSplitPiece sep l).length ≤ l.length := by
  unfold lastSplitPiece
  calc (l.reverse.takeWhile (fun c => ¬ c = sep)).reverse.length
      = (l.reverse.takeWhile (fun c => ¬ c = sep)).length := List.length_reverse _
    _ ≤ l.reverse.length := (List.takeWhile_sublist _).length_le
    _ = l.length := List.length_reverse l

/-- A slice is no longer than the index distance. -/
theorem pySlice_length_le (text : Str) (a b : Nat) :
    (pySlice text a b).length ≤ b - a := by
  unfold pySlice
  calc ((text.drop a).take (b - a)).length
      = min (b - a) (text.drop a).length := List.length_take _ _
    _ ≤ b - a := Nat.min_le_left _ _

/-- The head surviving a `dropWhile` fails the predicate. -/
theorem head?_dropWhile_false {α : Type} (p : α → Bool) (l : List α) (c : α)
    (h : (l.dropWhile p).head? = some c) : p c = false := by
  induction l with
  | nil => simp [List.dropWhile] at h
  | cons x t ih =>
    rw [List.dropWhile_cons] at h
    by_cases hx : p x = true
    · rw [if_pos hx] at h
      exact ih h
    · rw [if_neg hx] at h
      have hxc : x = c := by simpa using h
      rw [← hxc]
      exact Bool.eq_false_iff.mpr hx

/-- A non-empty stripped string ends in a non-whitespace character. -/
theorem pyStrip_getLast_not_space (l : Str) (h : pyStrip l ≠ []) :
    ∃ c, (pyStrip l).getLast? = some c ∧ isPySpace c = false := by
  unfold pyStrip at h ⊢
  cases hh : ((l.dropWhile isPySpace).reverse.dropWhile isPySpace).head? with
  | none =>
    exfalso
    apply h
    rw [List.head?_eq_none_iff] at hh
    rw [hh]
    rfl
  | some c =>
    refine ⟨c, ?_, head?_dropWhile_false _ _ _ hh⟩
    rw [List.getLast?_reverse]
    exact hh

/-- A string containing a non-whitespace character does not strip to
nothing. -/
theorem pyStrip_ne_nil_of_mem (l : Str) (c : Char) (hc : c ∈ l)
    (hns : isPySpace c = false) : pyStrip l ≠ [] := by
  intro hnil
  unfold pyStrip at hnil
  have h1 : (l.dropWhile isPySpace).reverse.dropWhile isPySpace = [] := by
    have := congrArg List.reverse hnil
    simpa using this
  rw [List.dropWhile_eq_nil_iff] at h1
  have hsplit : l.takeWhile isPySpace ++ l.dropWhile isPySpace = l :=
    List.takeWhile_append_dropWhile isPySpace l
  have hc1 : c ∈ l.dropWhile isPySpace := by
    rcases List.mem_append.mp (by rw [hsplit]; exact hc) with htk | hdr
    · exact absurd (List.mem_takeWhile_imp htk) (by simp [hns])
    · exact hdr
  have := h1 c (List.mem_reverse.mpr hc1)
  rw [hns] at this
  cases this

/-- The character ending the string survives into the last split piece when
it is not the separator. -/
theorem lastSplitPiece_has (sep : Char) (l : Str) (c : Char)
    (hl : l.getLast? = some c) (hc : ¬ c = sep) : c ∈ lastSplitPiece sep l := by
  unfold lastSplitPiece
  have hh : l.reverse.head? = some c := by rw [List.head?_reverse]; exact hl
  cases hrev : l.reverse with
  | nil => rw [hrev] at hh; cases hh
  | cons x t =>
    rw [hrev] at hh
    have hx : x = c := by simpa using hh
    subst hx
    rw [List.takeWhile_cons, if_pos (by simpa using hc)]
    exact List.mem_reverse.mpr (List.mem_cons_self _ _)

/-- The shape invariant of C10. -/
def GoodResult (r : MeasurementResult) : Prop :=
  r.name ≠ [] ∧ r.name.length ≤ 100 ∧ r.reference_value = none ∧
  r.deviation = none ∧ r.remarks = none

/-- The context-derived name is never empty and never longer than 100
characters. -/
theorem unitContextName_good (text sym : Str) (s : Nat)
    (hsym : (unitFallbackName sym).length ≤ 100) :
    unitContextName text sym s ≠ [] ∧ (unitContextName text sym s).length ≤ 100 := by
  have hfb : unitFallbackName sym ≠ [] := by
    unfold unitFallbackName
    simp
  unfold unitContextName
  dsimp only
  by_cases hctx : pyStrip (pySlice text (s - 50) s) ≠ []
  · rw [if_pos hctx]
    have hname0 : pyStrip (lastSplitPiece '\n' (pyStrip (pySlice text (s - 50) s))) ≠ [] := by
      obtain ⟨c, hcl, hcs⟩ := pyStrip_getLast_not_space _ hctx
      have hcn : ¬ c = '\n' := by
        intro hceq
        rw [hceq] at hcs
        cases hcs
      exact pyStrip_ne_nil_of_mem _ c (lastSplitPiece_has '\n' _ c hcl hcn) hcs
    by_cases hlen : 100 <
        (pyStrip (lastSplitPiece '\n' (pyStrip (pySlice text (s - 50) s)))).length
    · rw [if_pos hlen]
      exact ⟨hfb, hsym⟩
    · rw [if_neg hlen]
      exact ⟨hname0, by omega⟩
  · rw [if_neg hctx]
    by_cases hlen : 100 < (unitFallbackName sym).length
    · rw [if_pos hlen]
      exact ⟨hfb, hsym⟩
    · rw [if_neg hlen]
      exact ⟨hfb, by omega⟩

/-- Every result the unit-anchored pass can contribute satisfies the shape
invariant. -/
theorem unitResultOf_good (text sym : Str) (m : RMatch)
    (hsym : (unitFallbackName sym).length ≤ 100) (r : MeasurementResult)
    (h : unitResultOf text sym m = some r) : GoodResult r := by
  unfold unitResultOf at h
  cases hf : pyFloat (pyReplace ',' '.' ((groupStr text m 1).getD [])) with
  | none => rw [hf] at h; cases h
  | some v =>
    rw [hf, Option.map_some'] at h
    have heq := Option.some.inj h
    have hn0 := congrArg MeasurementResult.name heq
    have hr0 := congrArg MeasurementResult.reference_value heq
    have hd0 := congrArg MeasurementResult.deviation heq
    have hm0 := congrArg MeasurementResult.remarks heq
    dsimp only at hn0 hr0 hd0 hm0
    obtain ⟨h1, h2⟩ := unitContextName_good text sym m.mstart hsym
    refine ⟨?_, ?_, hr0.symm, hd0.symm, hm0.symm⟩
    · rw [← hn0]; exact h1
    · rw [← hn0]; exact h2

/-- One unit-anchored step preserves the shape invariant of the whole
list. -/
theorem unitStep_good (text sym : Str) (hsym : (unitFallbackName sym).length ≤ 100)
    (acc : List MeasurementResult) (m : RMatch)
    (h : ∀ r ∈ acc, GoodResult r) : ∀ r ∈ unitStep text sym acc m, GoodResult r := by
  unfold unitStep
  cases hr : unitResultOf text sym m with
  | none => dsimp only; exact h
  | some r0 =>
    dsimp only
    by_cases hdup : acc.any (fun rr => decide (rr.name = r0.name) &&
        decide (rr.measured_value.value = r0.measured_value.value)) = true
    · rw [if_pos hdup]
      exact h
    · rw [if_neg hdup]
      intro r hrmem
      rcases List.mem_append.mp hrmem with hin | hnew
      · exact h r hin
      · have hreq : r = r0 := by simpa using hnew
        rw [hreq]
        exact unitResultOf_good text sym m hsym r0 hr

/-- One delimited-row step preserves the shape invariant. -/
theorem rowStep_good (text : Str) (acc : List MeasurementResult) (m : RMatch)
    (h : ∀ r ∈ acc, GoodResult r) : ∀ r ∈ rowStep text acc m, GoodResult r := by
  unfold rowStep
  by_cases hguard : pyStrip ((groupStr text m 1).getD []) = [] ∨
      100 < (pyStrip ((groupStr text m 1).getD [])).length
  · rw [if_pos hguard]
    exact h
  · rw [if_neg hguard]
    cases hf : pyFloat (pyReplace ',' '.' ((groupStr text m 2).getD [])) with
    | none => exact h
    | some value =>
      intro r hrmem
      rcases List.mem_append.mp hrmem with hin | hnew
      · exact h r hin
      · push_neg at hguard
        have hreq := List.mem_singleton.mp hnew
        rw [hreq]
        exact ⟨hguard.1, hguard.2, rfl, rfl, rfl⟩

/-- C10: every mined measurement result has a non-empty name of at most 100
characters, and its reference value, deviation and remarks are absent. -/
theorem extract_measurement_tables_shape (text : Str) (r : MeasurementResult)
    (hr : r ∈ extract_measurement_tables text) :
    r.name ≠ [] ∧ r.name.length ≤ 100 ∧ r.reference_value = none ∧
    r.deviation = none ∧ r.remarks = none := by
  have hfallback : ∀ ps ∈ UNIT_PATTERNS, (unitFallbackName ps.2).length ≤ 100 := by decide
  have hrow : ∀ x ∈ delimitedRowResults text, GoodResult x := by
    unfold delimitedRowResults
    refine foldl_preserve (fun l => ∀ x ∈ l, GoodResult x) (rowStep text)
      (fun acc m hm => rowStep_good text acc m hm) _ [] ?_
    intro x hx
    cases hx
  have hmain : ∀ (pats : List (RE × Str)),
      (∀ ps ∈ pats, (unitFallbackName ps.2).length ≤ 100) →
      ∀ acc, (∀ x ∈ acc, GoodResult x) →
      ∀ x ∈ pats.foldl
        (fun results ps => (finditer false false ps.1 text).foldl (unitStep text ps.2) results)
        acc, GoodResult x := by
    intro pats
    induction pats with
    | nil => intro _ acc hacc; exact hacc
    | cons ps t ih =>
      intro hall acc hacc
      simp only [List.foldl_cons]
      refine ih (fun q hq => hall q (List.mem_cons_of_mem ps hq)) _ ?_
      exact foldl_preserve (fun l => ∀ x ∈ l, GoodResult x) (unitStep text ps.2)
        (fun acc2 m hm => unitStep_good text ps.2 (hall ps (List.mem_cons_self ps t)) acc2 m hm)
        _ acc hacc
  exact hmain UNIT_PATTERNS hfallback (delimitedRowResults text) hrow r hr

/-- Witness for `extract_measurement_tables_shape`: applied to the first
result mined from `"5 N\n3 kN"`. -/
theorem extract_measurement_tables_shape_witness :
    ({ name := "5 N".toList,
       measured_value := { value := 3, unit := get_unit "kN".toList } } :
        MeasurementResult) ∈ extract_measurement_tables "5 N\n3 kN".toList ∧
    "5 N".toList ≠ ([] : Str) ∧ "5 N".toList.length ≤ 100 := by
  have hmem : ({ name := "5 N".toList,
                 measured_value := { value := 3, unit := get_unit "kN".toList } } :
        MeasurementResult) ∈ extract_measurement_tables "5 N\n3 kN".toList := by decide
  have hgood := extract_measurement_tables_shape "5 N\n3 kN".toList _ hmem
  exact ⟨hmem, hgood.1, hgood.2.1⟩

/-! ## Claim C5: date parsing -/

/-- Decimal digit character for one digit (clamping larger inputs to 9,
which the callers never produce). -/
def dChar (n : Nat) : Char :=
  match n with
  | 0 => '0'
  | 1 => '1'
  | 2 => '2'
  | 3 => '3'
  | 4 => '4'
  | 5 => '5'
  | 6 => '6'
  | 7 => '7'
  | 8 => '8'
  | _ => '9'

/-- Two-digit zero-padded rendering, as `"%d"`/`"%m"` print. -/
def pad2 (n : Nat) : Str := [dChar (n / 10), dChar (n % 10)]

/-- Four-digit rendering, as `"%Y"` prints. -/
def pad4 (n : Nat) : Str :=
  [dChar (n / 1000), dChar (n / 100 % 10), dChar (n / 10 % 10), dChar (n % 10)]

/-- The canonical rendering of a date in the first supported format
`%d.%m.%Y`. -/
def printDMY (dt : PyDate) : Str :=
  pad2 dt.day ++ '.' :: (pad2 dt.month ++ '.' :: pad4 dt.year)

/-- The dates accepted by the `datetime.date` constructor. -/
def ValidPyDate (dt : PyDate) : Prop :=
  1 ≤ dt.year ∧ dt.year ≤ 9999 ∧ 1 ≤ dt.month ∧ dt.month ≤ 12 ∧
  1 ≤ dt.day ∧ dt.day ≤ daysInMonth dt.year dt.month

/-- Digit characters are digits. -/
theorem dChar_isDigit (n : Nat) : (dChar n).isDigit = true := by
  unfold dChar
  split <;> decide

/-- Digit characters are not whitespace. -/
theorem dChar_not_space (n : Nat) : isPySpace (dChar n) = false := by
  unfold dChar
  split <;> decide

/-- Digit characters are not separators. -/
theorem dChar_ne_dot (n : Nat) : dChar n ≠ '.' := by
  unfold dChar
  split <;> decide

/-- Reading back a digit character. -/
theorem digitVal_dChar (n : Nat) (h : n ≤ 9) : digitVal (dChar n) = n := by
  interval_cases n <;> decide

/-- The `%d` alternation reads a zero-padded two-digit day back as itself,
first. -/
theorem dayAlts_pad2 (d : Nat) (h1 : 1 ≤ d) (h2 : d ≤ 31) (rest : Str) :
    ∃ tail, dayAlts (pad2 d ++ rest) = (d, rest) :: tail := by
  interval_cases d <;> exact ⟨_, rfl⟩

/-- The `%m` alternation reads a zero-padded two-digit month back as itself,
first. -/
theorem monthAlts_pad2 (m : Nat) (h1 : 1 ≤ m) (h2 : m ≤ 12) (rest : Str) :
    ∃ tail, monthAlts (pad2 m ++ rest) = (m, rest) :: tail := by
  interval_cases m <;> exact ⟨_, rfl⟩

/-- The `%Y` directive reads a four-digit year back exactly. -/
theorem parseYear4_pad4 (y : Nat) (h1 : 1000 ≤ y) (h2 : y ≤ 9999) :
    parseYear4 (pad4 y) = some (y, []) := by
  unfold pad4 parseYear4
  dsimp only
  rw [if_pos ⟨dChar_isDigit _, dChar_isDigit _, dChar_isDigit _, dChar_isDigit _⟩]
  have ha : y / 1000 ≤ 9 := by omega
  have hb : y / 100 % 10 ≤ 9 := by omega
  have hc : y / 10 % 10 ≤ 9 := by omega
  have hd : y % 10 ≤ 9 := by omega
  rw [digitVal_dChar _ ha, digitVal_dChar _ hb, digitVal_dChar _ hc, digitVal_dChar _ hd]
  have : 1000 * (y / 1000) + 100 * (y / 100 % 10) + 10 * (y / 10 % 10) + y % 10 = y := by
    omega
  rw [this]

/-- The `strptime` regex phase reads a printed `%d.%m.%Y` date back as its
components. -/
theorem matchDMY_print (y m d : Nat) (hd1 : 1 ≤ d) (hd2 : d ≤ 31)
    (hm1 : 1 ≤ m) (hm2 : m ≤ 12) (hy1 : 1000 ≤ y) (hy2 : y ≤ 9999) :
    matchDMY '.' false (printDMY ⟨y, m, d⟩) = some (d, m, y, []) := by
  obtain ⟨tl1, h1⟩ := dayAlts_pad2 d hd1 hd2 ('.' :: (pad2 m ++ '.' :: pad4 y))
  obtain ⟨tl2, h2⟩ := monthAlts_pad2 m hm1 hm2 ('.' :: pad4 y)
  unfold matchDMY printDMY
  dsimp only
  rw [h1, List.findSome?_cons]
  have hexp1 : expectChar '.' ('.' :: (pad2 m ++ '.' :: pad4 y)) =
      some (pad2 m ++ '.' :: pad4 y) := by
    unfold expectChar
    dsimp only
    rw [if_pos rfl]
  dsimp only
  rw [hexp1]
  simp only [Option.some_bind]
  rw [h2, List.findSome?_cons]
  have hexp2 : expectChar '.' ('.' :: pad4 y) = some (pad4 y) := by
    unfold expectChar
    dsimp only
    rw [if_pos rfl]
  dsimp only
  rw [hexp2]
  simp only [Option.some_bind]
  unfold parseYearK
  rw [if_neg Bool.false_ne_true, parseYear4_pad4 y hy1 hy2]
  rfl

/-- A string with non-whitespace first and last characters strips to
itself. -/
theorem pyStrip_eq_self (l : Str)
    (hh : ∀ c, l.head? = some c → isPySpace c = false)
    (hl : ∀ c, l.getLast? = some c → isPySpace c = false) : pyStrip l = l := by
  unfold pyStrip
  have h1 : l.dropWhile isPySpace = l := by
    cases l with
    | nil => rfl
    | cons x t =>
      rw [List.dropWhile_cons, if_neg]
      simp [hh x rfl]
  rw [h1]
  have h2 : l.reverse.dropWhile isPySpace = l.reverse := by
    cases hr : l.reverse with
    | nil => rfl
    | cons x t =>
      have hx : l.getLast? = some x := by
        rw [← List.head?_reverse, hr]
        rfl
      rw [List.dropWhile_cons, if_neg]
      simp [hl x hx]
  rw [h2, List.reverse_reverse]

/-- The printed date neither starts nor ends with whitespace, so stripping
is the identity on it. -/
theorem pyStrip_printDMY (dt : PyDate) : pyStrip (printDMY dt) = printDMY dt := by
  apply pyStrip_eq_self
  · intro c hc
    have hce : dChar (dt.day / 10) = c := by
      unfold printDMY pad2 at hc
      simpa using hc
    rw [← hce]
    exact dChar_not_space _
  · intro c hc
    have hce : dChar (dt.year % 10) = c := by
      unfold printDMY pad2 pad4 at hc
      simpa using hc
    rw [← hce]
    exact dChar_not_space _

/-- When a function fails on every prefix element up to index `i` and
succeeds at index `i`, the first-success scan returns that value. -/
theorem findSome?_first {α β : Type} (dflt : α) (f : α → Option β) :
    ∀ (l : List α) (i : Nat) (b : β), i < l.length →
      (∀ j, j < i → f (l.getD j dflt) = none) →
      f (l.getD i dflt) = some b → l.findSome? f = some b := by
  intro l
  induction l with
  | nil => intro i b hi; cases hi
  | cons a t ih =>
    intro i b hi hprev hcur
    cases i with
    | zero =>
      simp only [List.getD_cons_zero] at hcur
      rw [List.findSome?_cons, hcur]
    | succ n =>
      have h0 : f a = none := by
        have := hprev 0 (Nat.succ_pos n)
        simpa using this
      rw [List.findSome?_cons, h0]
      exact ih n b (Nat.lt_of_succ_lt_succ hi)
        (fun j hj => by simpa using hprev (j + 1) (Nat.succ_lt_succ hj))
        (by simpa using hcur)

/-- C5: a calendar date printed in the first supported format parses back
to exactly that date; a string on which every format fails parses to
`none` (never an error); and in general the first format that parses
successfully decides the result. -/
theorem parse_date_spec :
    (∀ dt : PyDate, ValidPyDate dt → 1000 ≤ dt.year →
      parse_date (printDMY dt) = some dt) ∧
    (∀ s : Str, parse_date s = none ↔ ∀ f ∈ date_formats, f (pyStrip s) = none) ∧
    (∀ (s : Str) (i : Nat) (dt : PyDate), i < date_formats.length →
      (∀ j, j < i → (date_formats.getD j (fun _ => none)) (pyStrip s) = none) →
      (date_formats.getD i (fun _ => none)) (pyStrip s) = some dt →
      parse_date s = some dt) := by
  have hdim : ∀ y m : Nat, daysInMonth y m ≤ 31 := by
    intro y m
    unfold daysInMonth
    split_ifs <;> omega
  refine ⟨?_, ?_, ?_⟩
  · rintro ⟨y, m, d⟩ ⟨h1, h2, h3, h4, h5, h6⟩ hy
    dsimp only at h1 h2 h3 h4 h5 h6 hy
    have h6a : d ≤ 31 := le_trans h6 (hdim y m)
    unfold parse_date
    rw [pyStrip_printDMY]
    unfold date_formats
    rw [List.findSome?_cons]
    have hm : finishDate (matchDMY '.' false (printDMY ⟨y, m, d⟩)) = some ⟨y, m, d⟩ := by
      rw [matchDMY_print y m d h5 h6a h3 h4 hy h2]
      unfold finishDate
      simp only [Option.some_bind]
      rw [if_pos trivial]
      unfold mkDate
      rw [if_pos ⟨h1, h2, h3, h4, h5, h6⟩]
    dsimp only
    rw [hm]
  · intro s
    unfold parse_date
    exact List.findSome?_eq_none_iff
  · intro s i dt hi hprev hcur
    unfold parse_date
    exact findSome?_first (fun _ => none) (fun f => f (pyStrip s)) date_formats i dt hi
      hprev hcur

/-- Witness for `parse_date_spec`: 15 January 2024 prints as
`"15.01.2024"` and round-trips; `"nonsense"` fails every format and parses
to `none`. -/
theorem parse_date_spec_witness :
    ValidPyDate ⟨2024, 1, 15⟩ ∧ 1000 ≤ (2024 : Nat) ∧
    printDMY ⟨2024, 1, 15⟩ = "15.01.2024".toList ∧
    parse_date "15.01.2024".toList = some ⟨2024, 1, 15⟩ ∧
    parse_date "nonsense".toList = none := by
  have hv : ValidPyDate ⟨2024, 1, 15⟩ := by
    unfold ValidPyDate daysInMonth isLeap
    norm_num
  have hp : printDMY ⟨2024, 1, 15⟩ = "15.01.2024".toList := by decide
  refine ⟨hv, by norm_num, hp, ?_, ?_⟩
  · have := (parse_date_spec.1 ⟨2024, 1, 15⟩ hv (by norm_num))
    rw [hp] at this
    exact this
  · rw [(parse_date_spec.2.1 "nonsense".toList)]
    decide
